import Mathlib

/-
Verification development for the iac-gen-go orchestration core.

The TypeScript source is shallowly embedded as pure Lean functions:
  * `executor.ts`   (CodeExecutor: executeCommand, executeBuildCycle, attempt*Fix)
  * `mcp-server.ts` (MCPServer: executeRemoteCommand, setupRemoteEnvironment,
                     uploadGeneratedCode, executeRemoteBuildCycle,
                     downloadDeploymentOutputs)
  * `generator.ts`  (IaCGenerator.validateGeneratedCode)
  * `agent.ts`      (IaCAgent: executeAgentCycle, generateFixPrompt,
                     generateImprovementPrompt, generateErrorRecoveryPrompt,
                     checkDeploymentExpectations)

Effects are made explicit:
  * each subprocess / remote command execution consumes one value of an
    oracle (indexed by the number of commands issued so far) and is
    appended to a trace, so command ordering is observable;
  * a thrown JS exception is an `Except.error`;
  * JS `undefined` for optional data is `Option.none`;
  * JS string truthiness (empty string is falsy) is modelled explicitly.
-/

namespace IaCGen

/-- Boolean test that the second character list occurs at the start of the first. -/
def startsWithL : List Char → List Char → Bool
  | _, [] => true
  | [], _ :: _ => false
  | a :: as, b :: bs => a == b && startsWithL as bs

/-- Boolean test that the second character list occurs somewhere inside the first. -/
def hasSubL : List Char → List Char → Bool
  | [], sub => sub.isEmpty
  | a :: as, sub => startsWithL (a :: as) sub || hasSubL as sub

/-- JS `s.includes(sub)` on strings. -/
def jsIncludes (s sub : String) : Bool := hasSubL s.toList sub.toList

/-- JS `a || b` where both operands are strings (the empty string is falsy). -/
def jsOr (a b : String) : String := if a = "" then b else a

/-- The `ExecutionResult` interface of `executor.ts`: `error` is `none` when the
JS field is `undefined`. -/
structure ExecutionResult where
  success : Bool
  output : String
  error : Option String
  exitCode : Int
deriving Repr, DecidableEq

/-- One executed local command, with the result the backend produced for it. -/
structure Entry where
  cmd : String
  args : List String
  result : ExecutionResult
deriving Repr, DecidableEq

/-- State of the local execution backend: the ordered trace of commands run so far. -/
structure ExecState where
  trace : List Entry
deriving Repr, DecidableEq

/-- Behaviour of the local process environment: the result of the n-th spawned
command of the run. -/
abbrev Oracle := Nat → ExecutionResult

/-- `CodeExecutor.executeCommand`: spawn a command, obtain its result from the
environment, and record it on the trace. -/
def executeCommand (o : Oracle) (cmd : String) (args : List String) (s : ExecState) :
    ExecutionResult × ExecState :=
  let r := o s.trace.length
  (r, ⟨s.trace ++ [⟨cmd, args, r⟩]⟩)

/-- The `{ success: false, output: 'No automatic fix available', exitCode: 1 }`
value returned by every `attempt*Fix` when no pattern matches. -/
def noFixResult : ExecutionResult := ⟨false, "No automatic fix available", none, 1⟩

/-- The expression `result.output || result.error || ''` used by every
`attempt*Fix` to obtain the text that is pattern-matched. -/
def outputText (r : ExecutionResult) : String := jsOr r.output (r.error.getD "")

/-- `CodeExecutor.attemptBuildFix`. -/
def attemptBuildFix (o : Oracle) (buildResult : ExecutionResult) (s : ExecState) :
    ExecutionResult × ExecState :=
  let output := outputText buildResult
  if jsIncludes output "Cannot find module" || jsIncludes output "Module not found" then
    executeCommand o "npm" ["install"] s
  else if jsIncludes output "go.mod" || jsIncludes output "go.sum" then
    let p := executeCommand o "go" ["mod", "tidy"] s
    if p.1.success then executeCommand o "go" ["mod", "download"] p.2 else p
  else (noFixResult, s)

/-- `CodeExecutor.attemptSynthFix`. -/
def attemptSynthFix (o : Oracle) (synthResult : ExecutionResult) (s : ExecState) :
    ExecutionResult × ExecState :=
  let output := outputText synthResult
  if jsIncludes output "cdktf get" || jsIncludes output ".gen" then
    executeCommand o "npx" ["cdktf", "get"] s
  else (noFixResult, s)

/-- `CodeExecutor.attemptLintFix`. -/
def attemptLintFix (o : Oracle) (lintResult : ExecutionResult) (s : ExecState) :
    ExecutionResult × ExecState :=
  let output := outputText lintResult
  if jsIncludes output "gofmt" || jsIncludes output "format" then
    executeCommand o "gofmt" ["-w", "."] s
  else (noFixResult, s)

/-- `CodeExecutor.attemptDeployFix`: the credential check precedes the
resource-conflict check. -/
def attemptDeployFix (o : Oracle) (deployResult : ExecutionResult) (s : ExecState) :
    ExecutionResult × ExecState :=
  let output := outputText deployResult
  if jsIncludes output "credentials" || jsIncludes output "access denied" then
    (⟨false, "AWS credentials need to be configured", none, 1⟩, s)
  else if jsIncludes output "already exists" || jsIncludes output "conflict" then
    executeCommand o "npm" ["run", "destroy"] s
  else (noFixResult, s)

/-- The `results` record of `executeBuildCycle`: one slot per phase, `none`
until the phase first executes in the invocation. -/
structure Results where
  build : Option ExecutionResult := none
  synth : Option ExecutionResult := none
  lint : Option ExecutionResult := none
  deploy : Option ExecutionResult := none
deriving Repr, DecidableEq

/-- Return value of `executeBuildCycle`. -/
structure BuildCycleResult where
  success : Bool
  results : Results
  finalError : Option String
deriving Repr, DecidableEq

/-- The per-phase pattern repeated inside `executeBuildCycle`: run the phase
command; on failure run the fix; if the fix succeeded re-run the phase command
once.  The returned result is the one finally stored in `results`. -/
def phaseStep (o : Oracle) (cmd : String) (args : List String)
    (fix : Oracle → ExecutionResult → ExecState → ExecutionResult × ExecState)
    (s : ExecState) : ExecutionResult × ExecState :=
  let p := executeCommand o cmd args s
  if p.1.success then p
  else
    let f := fix o p.1 p.2
    if f.1.success then executeCommand o cmd args f.2
    else (p.1, f.2)

/-- Outcome of one full pass of the while-loop body of `executeBuildCycle`:
either a value returned from the function, or a restart of the pass
(the `continue` statements). -/
inductive PassOut where
  | done : BuildCycleResult → PassOut
  | retry : Results → PassOut
deriving Repr

/-- One iteration of the while-loop of `executeBuildCycle`.  `isLast` is the
test `attempt === maxAttempts`.  A Deploy failure falls through to the final
`return { success: true, results }` exactly as in the source. -/
def onePass (o : Oracle) (isLast : Bool) (results : Results) (s : ExecState) :
    PassOut × ExecState :=
  let pb := phaseStep o "npm" ["run", "build"] attemptBuildFix s
  let results := { results with build := some pb.1 }
  if pb.1.success = false then
    if isLast then (.done ⟨false, results, some "Build phase failed after all attempts"⟩, pb.2)
    else (.retry results, pb.2)
  else
    let ps := phaseStep o "npm" ["run", "synth"] attemptSynthFix pb.2
    let results := { results with synth := some ps.1 }
    if ps.1.success = false then
      if isLast then (.done ⟨false, results, some "Synth phase failed after all attempts"⟩, ps.2)
      else (.retry results, ps.2)
    else
      let pl := phaseStep o "npm" ["run", "lint"] attemptLintFix ps.2
      let results := { results with lint := some pl.1 }
      if pl.1.success = false then
        if isLast then (.done ⟨false, results, some "Lint phase failed after all attempts"⟩, pl.2)
        else (.retry results, pl.2)
      else
        let pd := phaseStep o "npm" ["run", "deploy"] attemptDeployFix pl.2
        let results := { results with deploy := some pd.1 }
        (.done ⟨true, results, none⟩, pd.2)

/-- The while-loop of `executeBuildCycle`, by fuel: the argument counts the
attempts still permitted (so the current attempt is the last one when it is
`n + 1` with `n = 0`). -/
def buildCycleGo (o : Oracle) : Nat → Results → ExecState → BuildCycleResult × ExecState
  | 0, results, s => (⟨false, results, some "Build cycle failed after maximum attempts"⟩, s)
  | n + 1, results, s =>
    match onePass o (n == 0) results s with
    | (.done r, s') => (r, s')
    | (.retry results', s') => buildCycleGo o n results' s'

/-- `CodeExecutor.executeBuildCycle(maxAttempts)`. -/
def executeBuildCycle (o : Oracle) (maxAttempts : Nat) (s : ExecState) :
    BuildCycleResult × ExecState :=
  buildCycleGo o maxAttempts ⟨none, none, none, none⟩ s

/-- Result of `MCPServer.executeRemoteCommand` when the transport did not fail. -/
structure RemoteResult where
  stdout : String
  stderr : String
  code : Int
deriving Repr, DecidableEq

deriving instance DecidableEq for Except

/-- One remote command issued over the session: the outcome is `Except.error`
when `ssh.execCommand` threw (a transport failure). -/
structure RemoteEntry where
  cmd : String
  outcome : Except String RemoteResult
deriving Repr, DecidableEq

/-- State of the remote backend: the ordered trace of remote commands issued. -/
structure RemoteState where
  rtrace : List RemoteEntry
deriving Repr, DecidableEq

/-- Behaviour of the remote host: the outcome of the n-th command issued over
the session (`Except.error` means the ssh library threw). -/
abbrev RemoteOracle := Nat → Except String RemoteResult

/-- `MCPServer.executeRemoteCommand`: issue one command over the session and
record it.  The constant working-directory qualification (`cd dir && cmd`) is
dropped as an injective renaming of command names. -/
def executeRemoteCommand (ro : RemoteOracle) (cmd : String) (s : RemoteState) :
    (Except String RemoteResult) × RemoteState :=
  let out := ro s.rtrace.length
  (out, ⟨s.rtrace ++ [⟨cmd, out⟩]⟩)

/-- The `results` record of `executeRemoteBuildCycle`. -/
structure RemoteResults where
  build : Option RemoteResult := none
  synth : Option RemoteResult := none
  lint : Option RemoteResult := none
  deploy : Option RemoteResult := none
deriving Repr, DecidableEq

/-- Return value of `executeRemoteBuildCycle`. -/
structure RemoteCycleResult where
  success : Bool
  results : RemoteResults
  error : Option String
deriving Repr, DecidableEq

/-- `MCPServer.executeRemoteBuildCycle`: four phases run in order, returning
failure at the first nonzero exit code; the surrounding try/catch converts a
transport throw into `{ success: false, results: {}, error }`. -/
def executeRemoteBuildCycle (ro : RemoteOracle) (s : RemoteState) :
    RemoteCycleResult × RemoteState :=
  match executeRemoteCommand ro "npm run build" s with
  | (.error e, s') => (⟨false, {}, some e⟩, s')
  | (.ok b, s') =>
    if b.code != 0 then (⟨false, { build := some b }, some "Remote build failed"⟩, s')
    else
      match executeRemoteCommand ro "npm run synth" s' with
      | (.error e, s') => (⟨false, {}, some e⟩, s')
      | (.ok sy, s') =>
        if sy.code != 0 then
          (⟨false, { build := some b, synth := some sy }, some "Remote synth failed"⟩, s')
        else
          match executeRemoteCommand ro "npm run lint" s' with
          | (.error e, s') => (⟨false, {}, some e⟩, s')
          | (.ok l, s') =>
            if l.code != 0 then
              (⟨false, { build := some b, synth := some sy, lint := some l },
                some "Remote lint failed"⟩, s')
            else
              match executeRemoteCommand ro "npm run deploy" s' with
              | (.error e, s') => (⟨false, {}, some e⟩, s')
              | (.ok d, s') =>
                if d.code != 0 then
                  (⟨false, { build := some b, synth := some sy, lint := some l,
                             deploy := some d }, some "Remote deploy failed"⟩, s')
                else
                  (⟨true, { build := some b, synth := some sy, lint := some l,
                            deploy := some d }, none⟩, s')

/-- Remote-side configuration consumed by the MCP server functions. -/
structure RemoteCfg where
  workingDirectory : String
  githubRepoUrl : String
  envVars : List (String × String)

/-- `MCPServer.cloneRepository`: probe for `.git`, then pull or clone.  A
transport throw on any command propagates. -/
def cloneRepository (cfg : RemoteCfg) (ro : RemoteOracle) (s : RemoteState) :
    (Except String Unit) × RemoteState :=
  let chk := executeRemoteCommand ro ("test -d " ++ cfg.workingDirectory ++ "/.git") s
  match chk.1 with
  | .error e => (.error e, chk.2)
  | .ok r =>
    if r.code == 0 then
      let pull := executeRemoteCommand ro "git pull origin main" chk.2
      match pull.1 with
      | .error e => (.error e, pull.2)
      | .ok _ => (.ok (), pull.2)
    else
      let mk := executeRemoteCommand ro ("mkdir -p parent-of " ++ cfg.workingDirectory) chk.2
      match mk.1 with
      | .error e => (.error e, mk.2)
      | .ok _ =>
        let cl := executeRemoteCommand ro ("git clone " ++ cfg.githubRepoUrl) mk.2
        match cl.1 with
        | .error e => (.error e, cl.2)
        | .ok _ => (.ok (), cl.2)

/-- `MCPServer.installDependencies`. -/
def installDependencies (ro : RemoteOracle) (s : RemoteState) :
    (Except String Unit) × RemoteState :=
  let pj := executeRemoteCommand ro "test -f package.json" s
  match pj.1 with
  | .error e => (.error e, pj.2)
  | .ok r1 =>
    let afterNpm :=
      if r1.code == 0 then
        let ni := executeRemoteCommand ro "npm install" pj.2
        match ni.1 with
        | .error e => (Except.error e, ni.2)
        | .ok _ => (Except.ok (), ni.2)
      else (Except.ok (), pj.2)
    match afterNpm.1 with
    | .error e => (.error e, afterNpm.2)
    | .ok _ =>
      let gm := executeRemoteCommand ro "test -f go.mod" afterNpm.2
      match gm.1 with
      | .error e => (.error e, gm.2)
      | .ok r2 =>
        if r2.code == 0 then
          let t := executeRemoteCommand ro "go mod tidy" gm.2
          match t.1 with
          | .error e => (.error e, t.2)
          | .ok _ =>
            let d := executeRemoteCommand ro "go mod download" t.2
            match d.1 with
            | .error e => (.error e, d.2)
            | .ok _ => (.ok (), d.2)
        else (.ok (), gm.2)

/-- `MCPServer.setupEnvironmentVariables`: a single append to the remote
profile when environment variables are configured. -/
def setupEnvironmentVariables (cfg : RemoteCfg) (ro : RemoteOracle) (s : RemoteState) :
    (Except String Unit) × RemoteState :=
  if cfg.envVars.isEmpty then (.ok (), s)
  else
    let w := executeRemoteCommand ro "echo exports >> ~/.bashrc" s
    match w.1 with
    | .error e => (.error e, w.2)
    | .ok _ => (.ok (), w.2)

/-- `MCPServer.setupRemoteEnvironment`: clone/update, install dependencies,
export environment variables; any transport throw propagates uncaught. -/
def setupRemoteEnvironment (cfg : RemoteCfg) (ro : RemoteOracle) (s : RemoteState) :
    (Except String Unit) × RemoteState :=
  let c := cloneRepository cfg ro s
  match c.1 with
  | .error e => (.error e, c.2)
  | .ok _ =>
    let i := installDependencies ro c.2
    match i.1 with
    | .error e => (.error e, i.2)
    | .ok _ => setupEnvironmentVariables cfg ro i.2

/-- Behaviour of `ssh.putFile` for the n-th uploaded file (`some e` = throw). -/
abbrev PutOracle := Nat → Option String

/-- `MCPServer.uploadGeneratedCode`: per file, ensure the remote directory
exists (a remote command) and upload the file; the first throw propagates. -/
def uploadGeneratedCode (ro : RemoteOracle) (po : PutOracle)
    (files : List (String × String)) (s : RemoteState) (putStep : Nat) :
    (Except String Unit) × RemoteState × Nat :=
  match files with
  | [] => (.ok (), s, putStep)
  | (p, _) :: rest =>
    let mk := executeRemoteCommand ro ("mkdir -p dir-of " ++ p) s
    match mk.1 with
    | .error e => (.error e, mk.2, putStep)
    | .ok _ =>
      match po putStep with
      | some e => (.error e, mk.2, putStep + 1)
      | none => uploadGeneratedCode ro po rest mk.2 (putStep + 1)

/-- The fixed probe list of `downloadDeploymentOutputs`. -/
def outputLocations : List String := ["cfn-outputs/", "cdk-stacks.json", "terraform.tfstate"]

/-- Boolean test that a string ends with `/` (the directory convention of
`downloadDeploymentOutputs`). -/
def endsWithSlash (s : String) : Bool := startsWithL s.toList.reverse ['/']

/-- Probe one well-known output location: `test -e`, then `ls` for a
directory or `cat` for a file.  `JSON.parse` of file contents only reshapes
the stored value, so the raw stdout is recorded. -/
def probeOutput (ro : RemoteOracle) (file : String) (s : RemoteState) :
    (Except String (Option (String × String))) × RemoteState :=
  let chk := executeRemoteCommand ro ("test -e " ++ file) s
  match chk.1 with
  | .error e => (.error e, chk.2)
  | .ok r =>
    if r.code == 0 then
      if endsWithSlash file then
        let ls := executeRemoteCommand ro ("ls -la " ++ file) chk.2
        match ls.1 with
        | .error e => (.error e, ls.2)
        | .ok lr => (.ok (some (file, lr.stdout)), ls.2)
      else
        let ct := executeRemoteCommand ro ("cat " ++ file) chk.2
        match ct.1 with
        | .error e => (.error e, ct.2)
        | .ok cr =>
          if cr.code == 0 then (.ok (some (file, cr.stdout)), ct.2)
          else (.ok none, ct.2)
    else (.ok none, chk.2)

/-- Loop body of `downloadDeploymentOutputs` over the probe list. -/
def downloadLoop (ro : RemoteOracle) : List String → List (String × String) → RemoteState →
    (Except String (List (String × String))) × RemoteState
  | [], acc, s => (.ok acc, s)
  | f :: rest, acc, s =>
    match probeOutput ro f s with
    | (.error e, s') => (.error e, s')
    | (.ok none, s') => downloadLoop ro rest acc s'
    | (.ok (some kv), s') => downloadLoop ro rest (acc ++ [kv]) s'

/-- `MCPServer.downloadDeploymentOutputs`: the surrounding try/catch converts
any transport throw into an empty mapping. -/
def downloadDeploymentOutputs (ro : RemoteOracle) (s : RemoteState) :
    List (String × String) × RemoteState :=
  match downloadLoop ro outputLocations [] s with
  | (.error _, s') => ([], s')
  | (.ok outs, s') => (outs, s')

/-- Return value of `IaCGenerator.validateGeneratedCode`. -/
structure ValidationResult where
  valid : Bool
  errors : List String
deriving Repr, DecidableEq

/-- The `requiredFiles` list of `validateGeneratedCode`. -/
def requiredFiles : List String := ["lib/tap_stack.go", "bin/tap.go", "cdk.json"]

/-- JS object indexing `files[k]` on a file set represented as an association
list (generated file sets have distinct keys). -/
def jsLookup (files : List (String × String)) (k : String) : Option String :=
  (files.find? (fun kv => kv.1 == k)).map (fun kv => kv.2)

/-- Boolean test that `s` ends with `suffix`. -/
def strEndsWith (s suffix : String) : Bool :=
  startsWithL s.toList.reverse suffix.toList.reverse

/-- `IaCGenerator.validateGeneratedCode`, parameterised by the host JSON
parser (`jsonParses c = true` iff `JSON.parse(c)` does not throw).  A required
file that is absent or empty is reported missing (JS falsiness of
`!files[file]`); the `cdk.json` parse check runs only when the entry is
present and nonempty. -/
def validateGeneratedCode (jsonParses : String → Bool)
    (files : List (String × String)) : ValidationResult :=
  let errors1 := requiredFiles.filterMap (fun f =>
    if (jsLookup files f).getD "" == "" then some ("Missing required file: " ++ f) else none)
  let errors2 := files.filterMap (fun kv =>
    if strEndsWith kv.1 ".go" && !(jsIncludes kv.2 "package ") then
      some (kv.1 ++ ": Missing package declaration")
    else none)
  let errors3 :=
    if (jsLookup files "cdk.json").getD "" == "" then []
    else if jsonParses ((jsLookup files "cdk.json").getD "") then []
    else ["cdk.json: Invalid JSON format"]
  let errors := errors1 ++ errors2 ++ errors3
  ⟨errors.isEmpty, errors⟩

/-- `IaCAgent.checkDeploymentExpectations`: false on an empty mapping,
otherwise true iff some key contains `output`, `stack` or `cfn`. -/
def checkDeploymentExpectations (_originalPrompt : String)
    (deploymentOutputs : List (String × String)) : Bool :=
  if deploymentOutputs.isEmpty then false
  else deploymentOutputs.any (fun kv =>
    jsIncludes kv.1 "output" || jsIncludes kv.1 "stack" || jsIncludes kv.1 "cfn")

/-- Return value of `IaCGenerator.generateCDKTFGoCode` (the external
generation service, opaque to the core). -/
structure GenOutcome where
  success : Bool
  files : List (String × String)
  error : Option String
deriving Repr, DecidableEq

/-- A per-phase entry of `buildResult.results` as read dynamically by
`generateFixPrompt`: a local `ExecutionResult` or a remote
`{stdout, stderr, code}` object (which has no `success`, `error` or `output`
fields). -/
inductive PhaseVal where
  | localR : ExecutionResult → PhaseVal
  | remoteR : RemoteResult → PhaseVal
deriving Repr, DecidableEq

/-- JS truthiness of `result.success` on a phase entry (`undefined` on remote
entries, hence falsy). -/
def PhaseVal.successy : PhaseVal → Bool
  | .localR r => r.success
  | .remoteR _ => false

/-- The text `result.error || result.output` interpolated by
`generateFixPrompt` (both fields are `undefined` on remote entries, so the
template renders the string `undefined`). -/
def PhaseVal.errText : PhaseVal → String
  | .localR r =>
    match r.error with
    | some e => if e == "" then r.output else e
    | none => r.output
  | .remoteR _ => "undefined"

/-- The `buildResult` stored on a cycle record: local or remote shape. -/
inductive BuildRes where
  | localB : BuildCycleResult → BuildRes
  | remoteB : RemoteCycleResult → BuildRes
deriving Repr, DecidableEq

/-- The `success` field present on both build-result shapes. -/
def BuildRes.successFlag : BuildRes → Bool
  | .localB r => r.success
  | .remoteB r => r.success

/-- The `build` entry of `buildResult.results`. -/
def BuildRes.buildPhase : BuildRes → Option PhaseVal
  | .localB r => r.results.build.map PhaseVal.localR
  | .remoteB r => r.results.build.map PhaseVal.remoteR

/-- The `synth` entry of `buildResult.results`. -/
def BuildRes.synthPhase : BuildRes → Option PhaseVal
  | .localB r => r.results.synth.map PhaseVal.localR
  | .remoteB r => r.results.synth.map PhaseVal.remoteR

/-- The `lint` entry of `buildResult.results`. -/
def BuildRes.lintPhase : BuildRes → Option PhaseVal
  | .localB r => r.results.lint.map PhaseVal.localR
  | .remoteB r => r.results.lint.map PhaseVal.remoteR

/-- The `deploy` entry of `buildResult.results`. -/
def BuildRes.deployPhase : BuildRes → Option PhaseVal
  | .localB r => r.results.deploy.map PhaseVal.localR
  | .remoteB r => r.results.deploy.map PhaseVal.remoteR

/-- The interpolation `buildResult?.finalError || buildResult?.error ||
'Unknown error'` of the last-cycle failure message. -/
def failMsg : BuildRes → String
  | .localB r => jsOr (r.finalError.getD "") "Unknown error"
  | .remoteB r => jsOr (r.error.getD "") "Unknown error"

/-- One line of `fixContext` in `generateFixPrompt`: present when the phase
entry exists and its `success` field is falsy. -/
def phaseLine (label : String) (pv : Option PhaseVal) : String :=
  match pv with
  | some v => if v.successy = false then label ++ " error: " ++ v.errText ++ "\n" else ""
  | none => ""

/-- `IaCAgent.generateFixPrompt`. -/
def generateFixPrompt (originalPrompt : String) (buildResult : Option BuildRes) : String :=
  let fixContext :=
    phaseLine "Build" (buildResult.bind BuildRes.buildPhase) ++
    phaseLine "Synth" (buildResult.bind BuildRes.synthPhase) ++
    phaseLine "Lint" (buildResult.bind BuildRes.lintPhase) ++
    phaseLine "Deploy" (buildResult.bind BuildRes.deployPhase)
  originalPrompt ++
    "\n\nIMPORTANT: The previous attempt failed with the following errors:\n" ++
    fixContext ++
    "\n\nPlease fix these issues and generate corrected code that will build, synth, lint, and deploy successfully."

/-- Rendering of `JSON.stringify(deploymentOutputs, null, 2)` (the exact
layout of the host serialisation is irrelevant to every claim). -/
def stringifyOutputs (outs : List (String × String)) : String :=
  String.intercalate ", " (outs.map (fun kv => kv.1 ++ ": " ++ kv.2))

/-- `IaCAgent.generateImprovementPrompt`. -/
def generateImprovementPrompt (originalPrompt : String)
    (deploymentOutputs : List (String × String)) : String :=
  originalPrompt ++
    "\n\nThe previous deployment was successful but may not fully meet all requirements. \nCurrent deployment outputs: " ++
    stringifyOutputs deploymentOutputs ++
    "\n\nPlease review and improve the infrastructure to better meet the requirements."

/-- `IaCAgent.generateErrorRecoveryPrompt`. -/
def generateErrorRecoveryPrompt (originalPrompt : String) (err : String) : String :=
  originalPrompt ++
    "\n\nCRITICAL: The previous attempt failed with an unexpected error: " ++ err ++
    "\n\nPlease generate robust code with proper error handling and validation."

/-- Rendering of an optional JS string in a template literal
(`undefined` prints as the string `undefined`). -/
def jsShowOpt : Option String → String
  | some e => e
  | none => "undefined"

/-- A `CycleResult` record of `agent.ts`; optional fields are `undefined`
until assigned. -/
structure CycleResult where
  cycle : Nat
  success : Bool
  generationResult : Option GenOutcome
  buildResult : Option BuildRes
  deploymentOutputs : Option (List (String × String))
  error : Option String
deriving Repr, DecidableEq

/-- The execution mode of the agent. -/
inductive Mode where
  | localM
  | remoteM
deriving Repr, DecidableEq

/-- Behaviour of all external collaborators of one agent run. -/
structure AgentEnv where
  genO : Nat → GenOutcome
  jsonParses : String → Bool
  execO : Nat → Oracle
  remoteO : RemoteOracle
  putO : PutOracle
  connectO : Option String
  cfg : RemoteCfg

/-- Mutable state of one `executeAgentCycle` call: the ssh-session flag, the
remote backend state, the upload counter, plus two ghost logs (the prompt
passed to each generation call, and the cycles in which a build pipeline was
invoked). -/
structure AgentSt where
  connected : Bool
  rstate : RemoteState
  putStep : Nat
  prompts : List (Nat × String)
  invoked : List Nat
deriving Repr

/-- `MCPServer.connect`: on success the `connected` flag is set; a throw
propagates with the flag still clear. -/
def connectSSH (env : AgentEnv) (st : AgentSt) : (Except String Unit) × AgentSt :=
  match env.connectO with
  | some e => (.error e, st)
  | none => (.ok (), { st with connected := true })

/-- `MCPServer.disconnect`. -/
def disconnectSSH (st : AgentSt) : AgentSt :=
  if st.connected then { st with connected := false } else st

/-- `setupRemoteEnvironment` lifted to the agent state. -/
def setupRemoteAgent (env : AgentEnv) (st : AgentSt) : (Except String Unit) × AgentSt :=
  let p := setupRemoteEnvironment env.cfg env.remoteO st.rstate
  (p.1, { st with rstate := p.2 })

/-- Stage of the cycle body following a completed build-pipeline invocation:
record the result; on failure synthesise the fix prompt (next-to-last cycles)
or the terminal error message (last cycle); on success collect deployment
outputs, record success, and break iff expectations are met. -/
def afterBuild (mode : Mode) (env : AgentEnv) (maxCycles : Nat) (origPrompt : String)
    (cycle : Nat) (currentPrompt : String) (gen : GenOutcome) (bres : BuildRes)
    (st : AgentSt) : CycleResult × String × Bool × AgentSt :=
  if bres.successFlag = false then
    (⟨cycle, false, some gen, some bres, none,
      if cycle < maxCycles then none else some ("Build cycle failed: " ++ failMsg bres)⟩,
     if cycle < maxCycles then generateFixPrompt currentPrompt (some bres) else currentPrompt,
     false, st)
  else
    let outsp : List (String × String) × AgentSt :=
      match mode with
      | .localM => ([], st)
      | .remoteM =>
        let dp := downloadDeploymentOutputs env.remoteO st.rstate
        (dp.1, { st with rstate := dp.2 })
    let cr : CycleResult := ⟨cycle, true, some gen, some bres, some outsp.1, none⟩
    if checkDeploymentExpectations origPrompt outsp.1 then
      (cr, currentPrompt, true, outsp.2)
    else if cycle < maxCycles then
      (cr, generateImprovementPrompt currentPrompt outsp.1, false, outsp.2)
    else
      (cr, currentPrompt, false, outsp.2)

/-- Stage of the cycle body that invokes the build pipeline of the configured
backend (recording the invocation in the ghost log). -/
def runPipeline (mode : Mode) (env : AgentEnv) (maxCycles : Nat) (origPrompt : String)
    (cycle : Nat) (currentPrompt : String) (gen : GenOutcome) (st : AgentSt) :
    CycleResult × String × Bool × AgentSt :=
  let st := { st with invoked := st.invoked ++ [cycle] }
  match mode with
  | .localM =>
    afterBuild .localM env maxCycles origPrompt cycle currentPrompt gen
      (BuildRes.localB (executeBuildCycle (env.execO cycle) 3 ⟨[]⟩).1) st
  | .remoteM =>
    let p := executeRemoteBuildCycle env.remoteO st.rstate
    afterBuild .remoteM env maxCycles origPrompt cycle currentPrompt gen
      (BuildRes.remoteB p.1) { st with rstate := p.2 }

/-- One iteration of the outer cycle loop of `IaCAgent.executeAgentCycle`:
generation, structural validation, file delivery, pipeline, expectation check.
Returns the pushed record, the prompt for the next cycle, the break flag, and
the updated state.  The only modelled throw point inside the body is the
remote file upload; its exception is absorbed by the per-cycle catch. -/
def runCycle (mode : Mode) (env : AgentEnv) (maxCycles : Nat) (origPrompt : String)
    (cycle : Nat) (currentPrompt : String) (st : AgentSt) :
    CycleResult × String × Bool × AgentSt :=
  let st := { st with prompts := st.prompts ++ [(cycle, currentPrompt)] }
  let gen := env.genO cycle
  if gen.success = false then
    (⟨cycle, false, none, none, none,
      some ("Code generation failed: " ++ jsShowOpt gen.error)⟩, currentPrompt, false, st)
  else
    let v := validateGeneratedCode env.jsonParses gen.files
    if v.valid = false then
      (⟨cycle, false, some gen, none, none,
        some ("Generated code validation failed: " ++ String.intercalate ", " v.errors)⟩,
       currentPrompt, false, st)
    else
      match mode with
      | .localM => runPipeline .localM env maxCycles origPrompt cycle currentPrompt gen st
      | .remoteM =>
        let up := uploadGeneratedCode env.remoteO env.putO gen.files st.rstate st.putStep
        match up.1 with
        | .error e =>
          (⟨cycle, false, some gen, none, none, some e⟩,
           if cycle < maxCycles then generateErrorRecoveryPrompt currentPrompt e
           else currentPrompt,
           false, { st with rstate := up.2.1, putStep := up.2.2 })
        | .ok _ =>
          runPipeline .remoteM env maxCycles origPrompt cycle currentPrompt gen
            { st with rstate := up.2.1, putStep := up.2.2 }

/-- The `for (let cycle = 1; cycle <= maxCycles; cycle++)` loop, by fuel. -/
def agentGo (mode : Mode) (env : AgentEnv) (maxCycles : Nat) (origPrompt : String) :
    Nat → Nat → String → AgentSt → List CycleResult × AgentSt
  | 0, _, _, st => ([], st)
  | n + 1, cycle, prompt, st =>
    let step := runCycle mode env maxCycles origPrompt cycle prompt st
    if step.2.2.1 then ([step.1], step.2.2.2)
    else
      let rest := agentGo mode env maxCycles origPrompt n (cycle + 1) step.2.1 step.2.2.2
      (step.1 :: rest.1, rest.2)

/-- The initial `AgentSt` of a run. -/
def initSt : AgentSt := ⟨false, ⟨[]⟩, 0, [], []⟩

/-- `IaCAgent.executeAgentCycle`: in remote mode the session is opened and the
remote environment bootstrapped before cycle 1 (either may throw, and neither
is guarded by a try/finally); the loop then runs; in remote mode the session
is disconnected after the loop. -/
def executeAgentCycle (mode : Mode) (env : AgentEnv) (maxCycles : Nat) (prompt : String) :
    (Except String (List CycleResult)) × AgentSt :=
  match mode with
  | .localM =>
    let p := agentGo .localM env maxCycles prompt maxCycles 1 prompt initSt
    (.ok p.1, p.2)
  | .remoteM =>
    match connectSSH env initSt with
    | (.error e, st) => (.error e, st)
    | (.ok _, st) =>
      match setupRemoteAgent env st with
      | (.error e, st') => (.error e, st')
      | (.ok _, st') =>
        let p := agentGo .remoteM env maxCycles prompt maxCycles 1 prompt st'
        (.ok p.1, disconnectSSH p.2)

/-! Trace predicates and concrete instances used by the theorems. -/

/-- A default entry (its command matches no phase or remedy pattern). -/
def dfltE : Entry := ⟨"", [], ⟨false, "", none, 0⟩⟩

/-- Total indexing into a trace. -/
def entryAt (tr : List Entry) (i : Nat) : Entry := tr.getD i dfltE

/-- Entry is an execution of the Build phase command. -/
def isBuildE (e : Entry) : Bool := e.cmd == "npm" && e.args == ["run", "build"]

/-- Entry is an execution of the Synthesize phase command. -/
def isSynthE (e : Entry) : Bool := e.cmd == "npm" && e.args == ["run", "synth"]

/-- Entry is an execution of the Lint phase command. -/
def isLintE (e : Entry) : Bool := e.cmd == "npm" && e.args == ["run", "lint"]

/-- Entry is an execution of the Deploy phase command. -/
def isDeployE (e : Entry) : Bool := e.cmd == "npm" && e.args == ["run", "deploy"]

/-- Entry is the Deploy-phase teardown remedy. -/
def isDestroyE (e : Entry) : Bool := e.cmd == "npm" && e.args == ["run", "destroy"]

/-- Entry is the Lint-phase formatter remedy. -/
def isGofmtE (e : Entry) : Bool := e.cmd == "gofmt" && e.args == ["-w", "."]

/-- Entry is the Synthesize-phase provider-bindings remedy. -/
def isCdktfGetE (e : Entry) : Bool := e.cmd == "npx" && e.args == ["cdktf", "get"]

/-- The recorded result of the entry succeeded. -/
def succE (e : Entry) : Bool := e.result.success

/-- Local ordering invariant at position `i` of a trace: each phase execution
is immediately preceded by a successful execution of the previous phase or by
a successful run of that phase's own remedy, and each remedy execution is
immediately preceded by the failed phase execution it repairs. -/
def predOk (tr : List Entry) (i : Nat) : Prop :=
  (isDeployE (entryAt tr i) = true → 0 < i ∧
    ((isLintE (entryAt tr (i - 1)) = true ∧ succE (entryAt tr (i - 1)) = true) ∨
     (isDestroyE (entryAt tr (i - 1)) = true ∧ succE (entryAt tr (i - 1)) = true))) ∧
  (isLintE (entryAt tr i) = true → 0 < i ∧
    ((isSynthE (entryAt tr (i - 1)) = true ∧ succE (entryAt tr (i - 1)) = true) ∨
     (isGofmtE (entryAt tr (i - 1)) = true ∧ succE (entryAt tr (i - 1)) = true))) ∧
  (isSynthE (entryAt tr i) = true → 0 < i ∧
    ((isBuildE (entryAt tr (i - 1)) = true ∧ succE (entryAt tr (i - 1)) = true) ∨
     (isCdktfGetE (entryAt tr (i - 1)) = true ∧ succE (entryAt tr (i - 1)) = true))) ∧
  (isDestroyE (entryAt tr i) = true → 0 < i ∧
    isDeployE (entryAt tr (i - 1)) = true ∧ succE (entryAt tr (i - 1)) = false) ∧
  (isGofmtE (entryAt tr i) = true → 0 < i ∧
    isLintE (entryAt tr (i - 1)) = true ∧ succE (entryAt tr (i - 1)) = false) ∧
  (isCdktfGetE (entryAt tr i) = true → 0 < i ∧
    isSynthE (entryAt tr (i - 1)) = true ∧ succE (entryAt tr (i - 1)) = false)

/-- The ordering invariant over a whole trace. -/
def TraceOk (tr : List Entry) : Prop := ∀ i, predOk tr i

/-- The last entry of a trace. -/
def lastE (tr : List Entry) : Entry := entryAt tr (tr.length - 1)

/-- The four remote phase commands in pipeline order. -/
def remotePhaseCmds : List String :=
  ["npm run build", "npm run synth", "npm run lint", "npm run deploy"]

/-- A record produced by a cycle that terminates the outer loop: the cycle
succeeded and the expectation check on its collected outputs passed. -/
def terminating (origPrompt : String) (r : CycleResult) : Prop :=
  r.success = true ∧
  checkDeploymentExpectations origPrompt (r.deploymentOutputs.getD []) = true

/-- A successful command result. -/
def okR : ExecutionResult := ⟨true, "", none, 0⟩

/-- Local environment in which every command succeeds. -/
def oAllOk : Oracle := fun _ => okR

/-- Local environment: build, synth and lint succeed, deploy fails with output
matching no remedy pattern. -/
def oC1 : Oracle := fun n =>
  if n == 3 then ⟨false, "deployment blew up", some "deployment blew up", 1⟩ else okR

/-- Remote environment: the first command fails with an unresolved-module
message, everything afterwards succeeds. -/
def roC2 : RemoteOracle := fun n =>
  if n == 0 then .ok ⟨"", "Cannot find module x", 1⟩ else .ok ⟨"", "", 0⟩

/-- Local environment: the first command fails with an unresolved-module
message, everything afterwards succeeds. -/
def oC2 : Oracle := fun n =>
  if n == 0 then ⟨false, "Cannot find module x", some "Cannot find module x", 1⟩ else okR

/-- Local environment: deploy fails once with a resource-conflict message;
every other command (including the teardown remedy and the deploy re-run)
succeeds. -/
def oC8 : Oracle := fun n =>
  if n == 3 then ⟨false, "resource already exists", some "resource already exists", 1⟩ else okR

/-- Local environment: every command fails with stdout `ZZA`, stderr `ZZB`
(combined output `ZZAZZB`), matching no remedy pattern. -/
def oC6 : Oracle := fun _ => ⟨false, "ZZAZZB", some "ZZB", 1⟩

/-- Remote host on which every command succeeds. -/
def roAllOk : RemoteOracle := fun _ => .ok ⟨"", "", 0⟩

/-- A fixed remote configuration. -/
def cfg0 : RemoteCfg := ⟨"/home/user/iac-workspace", "https://example.com/repo.git", []⟩

/-- A generation outcome whose file set passes structural validation. -/
def okGen : GenOutcome :=
  ⟨true, [("lib/tap_stack.go", "package lib"), ("bin/tap.go", "package main"),
          ("cdk.json", "x")], none⟩

/-- A failed generation outcome. -/
def failGen : GenOutcome := ⟨false, [], some "service unavailable"⟩

/-- A generation outcome missing the required entry-point file `bin/tap.go`. -/
def badGen : GenOutcome :=
  ⟨true, [("lib/tap_stack.go", "package lib"), ("cdk.json", "x")], none⟩

/-- Environment for witness runs: generation always succeeds with a valid file
set and every command succeeds. -/
def envW : AgentEnv :=
  ⟨fun _ => okGen, fun _ => true, fun _ => oAllOk, roAllOk, fun _ => none, none, cfg0⟩

/-- Environment whose cycle-1 build pipeline fails with combined output
`ZZAZZB` and whose cycle-2 generation fails. -/
def envC6 : AgentEnv :=
  ⟨fun c => if c == 2 then failGen else okGen, fun _ => true, fun _ => oC6,
   roAllOk, fun _ => none, none, cfg0⟩

/-- Environment whose cycle-1 generation returns a file set missing the
required entry point and whose cycle-2 generation fails. -/
def envC7 : AgentEnv :=
  ⟨fun c => if c == 1 then badGen else failGen, fun _ => true, fun _ => oAllOk,
   roAllOk, fun _ => none, none, cfg0⟩

/-- Environment whose ssh connection succeeds but whose first remote command
(the repository probe of the environment bootstrap) throws a transport
error. -/
def envC9 : AgentEnv :=
  ⟨fun _ => okGen, fun _ => true, fun _ => oAllOk,
   fun _ => .error "Connection lost", fun _ => none, none, cfg0⟩

/-- The local build-cycle result of the failing environment `oC6`. -/
def bcC6 : BuildCycleResult := (executeBuildCycle oC6 3 ⟨[]⟩).1

/-- The agent run used by the C6 counterexample. -/
def runC6 : (Except String (List CycleResult)) × AgentSt :=
  executeAgentCycle .localM envC6 2 "P"

/-- The cycle records of `runC6`. -/
def rsC6 : List CycleResult := runC6.1.toOption.getD []

/-- A default cycle record used for total indexing. -/
def dummyRec : CycleResult := ⟨0, false, none, none, none, none⟩

/-- The agent run used by the C4 witness. -/
def runW : (Except String (List CycleResult)) × AgentSt :=
  executeAgentCycle .localM envW 1 "p"

/-- The cycle records of `runW`. -/
def rsW : List CycleResult := runW.1.toOption.getD []

/-- The agent run used by the C7 witness. -/
def runC7 : (Except String (List CycleResult)) × AgentSt :=
  executeAgentCycle .localM envC7 2 "P"

/-- The cycle records of `runC7`. -/
def rsC7 : List CycleResult := runC7.1.toOption.getD []

/-! Theorems. -/

/-- C5 (counterexample): on the output mapping of the claim's own scenario,
`{bucketName: "my-app-storage"}`, the Expectation Checker returns `false`,
because `bucketName` contains none of the substrings `output`, `stack`,
`cfn`; the claim asserts it returns `true`. -/
theorem C5_counterexample :
    checkDeploymentExpectations "create a storage bucket"
      [("bucketName", "my-app-storage")] = false := by decide

/-- C5 (amended): the Expectation Checker returns `false` on an empty output
mapping, and on a nonempty mapping returns `true` exactly when some output
key contains one of the substrings `output`, `stack` or `cfn`; a key such as
`bucketName` does not qualify. -/
theorem C5_theorem : ∀ (p : String) (outs : List (String × String)),
    checkDeploymentExpectations p outs = true ↔
      (outs ≠ [] ∧ ∃ kv, kv ∈ outs ∧
        (jsIncludes kv.1 "output" = true ∨ jsIncludes kv.1 "stack" = true ∨
         jsIncludes kv.1 "cfn" = true)) := by
  intro p outs
  unfold checkDeploymentExpectations
  cases outs with
  | nil => simp
  | cons a as =>
    simp [List.any_eq_true, Bool.or_eq_true]
    aesop

theorem onePass_done_success (o : Oracle) (isLast : Bool) (results : Results) (s : ExecState)
    (r : BuildCycleResult) (s' : ExecState)
    (h : onePass o isLast results s = (.done r, s')) (hs : r.success = true) :
    ∃ b sy l d, r.results.build = some b ∧ b.success = true ∧
      r.results.synth = some sy ∧ sy.success = true ∧
      r.results.lint = some l ∧ l.success = true ∧ r.results.deploy = some d := by
  simp only [onePass] at h
  repeat' split at h
  all_goals simp only [Prod.mk.injEq] at h
  all_goals obtain ⟨h1, h2⟩ := h
  all_goals
    first
      | (solve | injection h1)
      | (injection h1 with h1; subst h1; simp at hs; done)
      | (injection h1 with h1; subst h1;
         exact ⟨_, _, _, _, rfl, by simp_all, rfl, by simp_all, rfl, by simp_all, rfl⟩)

theorem buildCycleGo_success (o : Oracle) :
    ∀ (n : Nat) (results : Results) (s : ExecState),
      (buildCycleGo o n results s).1.success = true →
      ∃ b sy l d, (buildCycleGo o n results s).1.results.build = some b ∧ b.success = true ∧
        (buildCycleGo o n results s).1.results.synth = some sy ∧ sy.success = true ∧
        (buildCycleGo o n results s).1.results.lint = some l ∧ l.success = true ∧
        (buildCycleGo o n results s).1.results.deploy = some d := by
  intro n
  induction n with
  | zero => intro results s h; simp [buildCycleGo] at h
  | succ n ih =>
    intro results s h
    cases ho : onePass o (n == 0) results s with
    | mk po s' =>
      cases po with
      | done r =>
        simp only [buildCycleGo, ho] at h ⊢
        exact onePass_done_success o (n == 0) results s r s' ho h
      | retry results' =>
        simp only [buildCycleGo, ho] at h ⊢
        exact ih results' s' h

/-- C1 (amended): the success flag of the local Build Pipeline is true only
when the final pass cleared Build, Synthesize and Lint and attempted Deploy;
it does not require the Deploy attempt to have succeeded.  A failed final
Deploy attempt is recorded in the per-phase results, but the overall flag
still reports success (see the counterexample). -/
theorem C1_theorem : ∀ (o : Oracle) (n : Nat) (s : ExecState),
    (executeBuildCycle o n s).1.success = true →
    ∃ b sy l d, (executeBuildCycle o n s).1.results.build = some b ∧ b.success = true ∧
      (executeBuildCycle o n s).1.results.synth = some sy ∧ sy.success = true ∧
      (executeBuildCycle o n s).1.results.lint = some l ∧ l.success = true ∧
      (executeBuildCycle o n s).1.results.deploy = some d := by
  intro o n s h
  exact buildCycleGo_success o n ⟨none, none, none, none⟩ s h

/-- C1 (witness): the amended theorem applied to the all-success environment. -/
theorem C1_witness :
    ∃ b sy l d, (executeBuildCycle oAllOk 3 ⟨[]⟩).1.results.build = some b ∧ b.success = true ∧
      (executeBuildCycle oAllOk 3 ⟨[]⟩).1.results.synth = some sy ∧ sy.success = true ∧
      (executeBuildCycle oAllOk 3 ⟨[]⟩).1.results.lint = some l ∧ l.success = true ∧
      (executeBuildCycle oAllOk 3 ⟨[]⟩).1.results.deploy = some d :=
  C1_theorem oAllOk 3 ⟨[]⟩ (by decide)

/-- C1 (counterexample): when Deploy fails with output matching no remedy
pattern, the pipeline still returns `success = true` while recording the
failed Deploy result — the overall flag masks the Deploy failure, refuting
the claim that success is reported only if the final Deploy attempt
succeeded. -/
theorem C1_counterexample :
    (executeBuildCycle oC1 3 ⟨[]⟩).1.success = true ∧
    (executeBuildCycle oC1 3 ⟨[]⟩).1.results.deploy =
      some ⟨false, "deployment blew up", some "deployment blew up", 1⟩ := by decide

/-- A default remote entry used for total indexing. -/
def dfltRE : RemoteEntry := ⟨"", .error ""⟩

theorem remoteShape (ro : RemoteOracle) (s : RemoteState) :
    ∃ seg, (executeRemoteBuildCycle ro s).2.rtrace = s.rtrace ++ seg ∧
      List.map RemoteEntry.cmd seg = remotePhaseCmds.take seg.length ∧
      seg.length ≤ 4 ∧
      (∀ i, i + 1 < seg.length →
        ∃ r, (seg.getD i dfltRE).outcome = .ok r ∧ r.code = 0) ∧
      ((executeRemoteBuildCycle ro s).1.success = true →
        seg.length = 4 ∧ ∀ i, i < seg.length →
          ∃ r, (seg.getD i dfltRE).outcome = .ok r ∧ r.code = 0) := by
  cases h0 : ro s.rtrace.length with
  | error e =>
    refine ⟨[⟨"npm run build", .error e⟩], ?_, ?_, ?_, ?_, ?_⟩ <;>
      simp [executeRemoteBuildCycle, executeRemoteCommand, h0, remotePhaseCmds]
  | ok b =>
    cases hb : (b.code != 0) with
    | true =>
      refine ⟨[⟨"npm run build", .ok b⟩], ?_, ?_, ?_, ?_, ?_⟩ <;>
        simp [executeRemoteBuildCycle, executeRemoteCommand, h0, hb, remotePhaseCmds]
    | false =>
      have hb0 : b.code = 0 := by simpa [bne] using hb
      cases h1 : ro (s.rtrace.length + 1) with
      | error e =>
        refine ⟨[⟨"npm run build", .ok b⟩, ⟨"npm run synth", .error e⟩], ?_, ?_, ?_, ?_, ?_⟩ <;>
          simp [executeRemoteBuildCycle, executeRemoteCommand, h0, hb, h1, remotePhaseCmds]
        intro i hi
        rcases i with _ | i
        · exact ⟨b, rfl, hb0⟩
        · omega
      | ok sy =>
        cases hsy : (sy.code != 0) with
        | true =>
          refine ⟨[⟨"npm run build", .ok b⟩, ⟨"npm run synth", .ok sy⟩], ?_, ?_, ?_, ?_, ?_⟩ <;>
            simp [executeRemoteBuildCycle, executeRemoteCommand, h0, hb, h1, hsy, remotePhaseCmds]
          intro i hi
          rcases i with _ | i
          · exact ⟨b, rfl, hb0⟩
          · omega
        | false =>
          have hsy0 : sy.code = 0 := by simpa [bne] using hsy
          cases h2 : ro (s.rtrace.length + 1 + 1) with
          | error e =>
            refine ⟨[⟨"npm run build", .ok b⟩, ⟨"npm run synth", .ok sy⟩,
                     ⟨"npm run lint", .error e⟩], ?_, ?_, ?_, ?_, ?_⟩ <;>
              simp [executeRemoteBuildCycle, executeRemoteCommand, h0, hb, h1, hsy, h2,
                    remotePhaseCmds]
            intro i hi
            rcases i with _ | _ | i
            · exact ⟨b, rfl, hb0⟩
            · exact ⟨sy, rfl, hsy0⟩
            · omega
          | ok l =>
            cases hl : (l.code != 0) with
            | true =>
              refine ⟨[⟨"npm run build", .ok b⟩, ⟨"npm run synth", .ok sy⟩,
                       ⟨"npm run lint", .ok l⟩], ?_, ?_, ?_, ?_, ?_⟩ <;>
                simp [executeRemoteBuildCycle, executeRemoteCommand, h0, hb, h1, hsy, h2, hl,
                      remotePhaseCmds]
              intro i hi
              rcases i with _ | _ | i
              · exact ⟨b, rfl, hb0⟩
              · exact ⟨sy, rfl, hsy0⟩
              · omega
            | false =>
              have hl0 : l.code = 0 := by simpa [bne] using hl
              cases h3 : ro (s.rtrace.length + 1 + 1 + 1) with
              | error e =>
                refine ⟨[⟨"npm run build", .ok b⟩, ⟨"npm run synth", .ok sy⟩,
                         ⟨"npm run lint", .ok l⟩, ⟨"npm run deploy", .error e⟩],
                        ?_, ?_, ?_, ?_, ?_⟩ <;>
                  simp [executeRemoteBuildCycle, executeRemoteCommand, h0, hb, h1, hsy, h2, hl,
                        h3, remotePhaseCmds]
                intro i hi
                rcases i with _ | _ | _ | i
                · exact ⟨b, rfl, hb0⟩
                · exact ⟨sy, rfl, hsy0⟩
                · exact ⟨l, rfl, hl0⟩
                · omega
              | ok d =>
                cases hd : (d.code != 0) with
                | true =>
                  refine ⟨[⟨"npm run build", .ok b⟩, ⟨"npm run synth", .ok sy⟩,
                           ⟨"npm run lint", .ok l⟩, ⟨"npm run deploy", .ok d⟩],
                          ?_, ?_, ?_, ?_, ?_⟩ <;>
                    simp [executeRemoteBuildCycle, executeRemoteCommand, h0, hb, h1, hsy, h2,
                          hl, h3, hd, remotePhaseCmds]
                  intro i hi
                  rcases i with _ | _ | _ | _ | i <;>
                    first
                      | exact ⟨b, rfl, hb0⟩
                      | exact ⟨sy, rfl, hsy0⟩
                      | exact ⟨l, rfl, hl0⟩
                      | omega
                | false =>
                  have hd0 : d.code = 0 := by simpa [bne] using hd
                  refine ⟨[⟨"npm run build", .ok b⟩, ⟨"npm run synth", .ok sy⟩,
                           ⟨"npm run lint", .ok l⟩, ⟨"npm run deploy", .ok d⟩],
                          ?_, ?_, ?_, ?_, ?_⟩ <;>
                    simp [executeRemoteBuildCycle, executeRemoteCommand, h0, hb, h1, hsy, h2,
                          hl, h3, hd, remotePhaseCmds]
                  all_goals
                    intro i hi
                  all_goals
                    rcases i with _ | _ | _ | _ | i <;>
                      first
                        | exact ⟨b, rfl, hb0⟩
                        | exact ⟨sy, rfl, hsy0⟩
                        | exact ⟨l, rfl, hl0⟩
                        | exact ⟨d, rfl, hd0⟩
                        | omega

/-- C2 (amended): the remote Build Pipeline, unlike the local one, never
consults the Error Classifier, never runs a remedy, never re-runs a failed
phase and never restarts a pass: the commands it issues are an in-order
sub-sequence-free prefix of the four phase commands, each executed at most
once, every command before the last returned exit code 0, and it reports
success exactly when all four phases completed with exit code 0. -/
theorem C2_theorem : ∀ (ro : RemoteOracle) (s : RemoteState),
    ∃ seg, (executeRemoteBuildCycle ro s).2.rtrace = s.rtrace ++ seg ∧
      List.map RemoteEntry.cmd seg = remotePhaseCmds.take seg.length ∧
      seg.length ≤ 4 ∧
      (∀ i, i + 1 < seg.length →
        ∃ r, (seg.getD i dfltRE).outcome = .ok r ∧ r.code = 0) ∧
      ((executeRemoteBuildCycle ro s).1.success = true →
        seg.length = 4 ∧ ∀ i, i < seg.length →
          ∃ r, (seg.getD i dfltRE).outcome = .ok r ∧ r.code = 0) :=
  fun ro s => remoteShape ro s

/-- C2 (witness): the amended theorem at the remote environment whose build
fails with an unresolved-module message. -/
theorem C2_witness :
    ∃ seg, (executeRemoteBuildCycle roC2 ⟨[]⟩).2.rtrace = [] ++ seg ∧
      List.map RemoteEntry.cmd seg = remotePhaseCmds.take seg.length ∧
      seg.length ≤ 4 ∧
      (∀ i, i + 1 < seg.length →
        ∃ r, (seg.getD i dfltRE).outcome = .ok r ∧ r.code = 0) ∧
      ((executeRemoteBuildCycle roC2 ⟨[]⟩).1.success = true →
        seg.length = 4 ∧ ∀ i, i < seg.length →
          ∃ r, (seg.getD i dfltRE).outcome = .ok r ∧ r.code = 0) :=
  C2_theorem roC2 ⟨[]⟩

/-- C2 (counterexample): on the same unresolved-module build failure the local
pipeline consults the classifier, runs `npm install` and re-runs the build,
whereas the remote pipeline stops after the single failed build command and
returns failure — the two backends are not uniform, refuting the claim. -/
theorem C2_counterexample :
    (executeRemoteBuildCycle roC2 ⟨[]⟩).2.rtrace.map RemoteEntry.cmd = ["npm run build"] ∧
    (executeRemoteBuildCycle roC2 ⟨[]⟩).1.success = false ∧
    (executeBuildCycle oC2 3 ⟨[]⟩).2.trace.map (fun e => (e.cmd, e.args)) =
      [("npm", ["run", "build"]), ("npm", ["install"]), ("npm", ["run", "build"]),
       ("npm", ["run", "synth"]), ("npm", ["run", "lint"]), ("npm", ["run", "deploy"])] ∧
    (executeBuildCycle oC2 3 ⟨[]⟩).1.success = true := by decide

/-- C8 (amended): for a Deploy failure whose captured output carries a
resource-conflict signal and no credential-denial signal, the classifier's
remedy is the teardown command `npm run destroy`; when the teardown succeeds
the Deploy command is re-run exactly once and the pipeline reports overall
success with the re-run's outcome recorded in place of the original failure.
(The credential check precedes the conflict check, so an output carrying both
signals is classified as fatal instead — see the counterexample.) -/
theorem C8_theorem : ∀ (o : Oracle) (n : Nat), 1 ≤ n →
    (o 0).success = true → (o 1).success = true → (o 2).success = true →
    (o 3).success = false →
    (jsIncludes (outputText (o 3)) "already exists" ||
      jsIncludes (outputText (o 3)) "conflict") = true →
    jsIncludes (outputText (o 3)) "credentials" = false →
    jsIncludes (outputText (o 3)) "access denied" = false →
    (o 4).success = true →
    (o 5).success = true →
    (executeBuildCycle o n ⟨[]⟩).1.success = true ∧
    (executeBuildCycle o n ⟨[]⟩).1.results.deploy = some (o 5) ∧
    (executeBuildCycle o n ⟨[]⟩).2.trace.map (fun e => (e.cmd, e.args)) =
      [("npm", ["run", "build"]), ("npm", ["run", "synth"]), ("npm", ["run", "lint"]),
       ("npm", ["run", "deploy"]), ("npm", ["run", "destroy"]), ("npm", ["run", "deploy"])] := by
  intro o n hn h0 h1 h2 h3 hconf hcr1 hcr2 h4 h5
  obtain ⟨m, rfl⟩ : ∃ m, n = m + 1 := ⟨n - 1, by omega⟩
  refine ⟨?_, ?_, ?_⟩ <;>
    simp [executeBuildCycle, buildCycleGo, onePass, phaseStep, executeCommand,
          attemptDeployFix, h0, h1, h2, h3, h4, h5, hconf, hcr1, hcr2]

/-- C8 (witness): the amended theorem at a concrete conflict-then-teardown
environment. -/
theorem C8_witness :
    (executeBuildCycle oC8 3 ⟨[]⟩).1.success = true ∧
    (executeBuildCycle oC8 3 ⟨[]⟩).1.results.deploy = some (oC8 5) ∧
    (executeBuildCycle oC8 3 ⟨[]⟩).2.trace.map (fun e => (e.cmd, e.args)) =
      [("npm", ["run", "build"]), ("npm", ["run", "synth"]), ("npm", ["run", "lint"]),
       ("npm", ["run", "deploy"]), ("npm", ["run", "destroy"]), ("npm", ["run", "deploy"])] :=
  C8_theorem oC8 3 (by decide) (by decide) (by decide) (by decide) (by decide) (by decide)
    (by decide) (by decide) (by decide) (by decide)

/-- C8 (counterexample): a Deploy failure whose output contains the conflict
signal `already exists` together with `access denied` is classified by the
credential branch: the remedy is not the teardown command, no command is
executed, and the classification is fatal — refuting the claim's universal
statement that every conflict-signal output is remedied by teardown. -/
theorem C8_counterexample :
    jsIncludes (outputText ⟨false, "access denied: resource already exists", none, 1⟩)
      "already exists" = true ∧
    attemptDeployFix oAllOk ⟨false, "access denied: resource already exists", none, 1⟩ ⟨[]⟩ =
      (⟨false, "AWS credentials need to be configured", none, 1⟩, ⟨[]⟩) := by decide

theorem entryAt_append_lt (tr seg : List Entry) (i : Nat) (h : i < tr.length) :
    entryAt (tr ++ seg) i = entryAt tr i := List.getD_append tr seg dfltE i h

theorem entryAt_ge (tr : List Entry) (i : Nat) (h : tr.length ≤ i) :
    entryAt tr i = dfltE := List.getD_eq_default tr dfltE h

theorem entryAt_snoc (tr : List Entry) (e : Entry) :
    entryAt (tr ++ [e]) tr.length = e := by
  unfold entryAt
  rw [List.getD_append_right tr [e] dfltE tr.length (le_refl _)]
  simp

theorem lastE_snoc (tr : List Entry) (e : Entry) : lastE (tr ++ [e]) = e := by
  unfold lastE
  have hl : (tr ++ [e]).length - 1 = tr.length := by simp
  rw [hl, entryAt_snoc]

theorem predOk_of_ge (tr : List Entry) (i : Nat) (h : tr.length ≤ i) : predOk tr i := by
  unfold predOk
  rw [entryAt_ge tr i h]
  refine ⟨?_, ?_, ?_, ?_, ?_, ?_⟩ <;> (intro habs; exact absurd habs (by decide))

theorem predOk_append_lt (tr seg : List Entry) (i : Nat) (h : i < tr.length)
    (hp : predOk tr i) : predOk (tr ++ seg) i := by
  unfold predOk at hp ⊢
  rw [entryAt_append_lt tr seg i h, entryAt_append_lt tr seg (i - 1) (by omega)]
  exact hp

theorem traceOk_snoc (tr : List Entry) (e : Entry) (h1 : TraceOk tr)
    (h2 : predOk (tr ++ [e]) tr.length) : TraceOk (tr ++ [e]) := by
  intro i
  rcases Nat.lt_trichotomy i tr.length with hlt | heq | hgt
  · exact predOk_append_lt tr [e] i hlt (h1 i)
  · exact heq ▸ h2
  · exact predOk_of_ge _ i (by simp; omega)

theorem traceOk_nil : TraceOk [] := fun i => predOk_of_ge [] i (by simp)

theorem predOk_snoc_un (tr : List Entry) (e : Entry)
    (he : isDeployE e = false ∧ isLintE e = false ∧ isSynthE e = false ∧
      isDestroyE e = false ∧ isGofmtE e = false ∧ isCdktfGetE e = false) :
    predOk (tr ++ [e]) tr.length := by
  unfold predOk
  rw [entryAt_snoc]
  obtain ⟨a, b, c, d, f, g⟩ := he
  refine ⟨?_, ?_, ?_, ?_, ?_, ?_⟩ <;> (intro habs; simp_all)

theorem predOk_snoc_deploy (tr : List Entry) (r : ExecutionResult) (hpos : 0 < tr.length)
    (hprev : (isLintE (lastE tr) = true ∧ succE (lastE tr) = true) ∨
             (isDestroyE (lastE tr) = true ∧ succE (lastE tr) = true)) :
    predOk (tr ++ [⟨"npm", ["run", "deploy"], r⟩]) tr.length := by
  unfold predOk
  rw [entryAt_snoc, entryAt_append_lt tr _ (tr.length - 1) (by omega)]
  exact ⟨fun _ => ⟨hpos, hprev⟩,
    fun habs => Bool.noConfusion habs, fun habs => Bool.noConfusion habs,
    fun habs => Bool.noConfusion habs, fun habs => Bool.noConfusion habs,
    fun habs => Bool.noConfusion habs⟩

theorem predOk_snoc_lint (tr : List Entry) (r : ExecutionResult) (hpos : 0 < tr.length)
    (hprev : (isSynthE (lastE tr) = true ∧ succE (lastE tr) = true) ∨
             (isGofmtE (lastE tr) = true ∧ succE (lastE tr) = true)) :
    predOk (tr ++ [⟨"npm", ["run", "lint"], r⟩]) tr.length := by
  unfold predOk
  rw [entryAt_snoc, entryAt_append_lt tr _ (tr.length - 1) (by omega)]
  exact ⟨fun habs => Bool.noConfusion habs, fun _ => ⟨hpos, hprev⟩,
    fun habs => Bool.noConfusion habs, fun habs => Bool.noConfusion habs,
    fun habs => Bool.noConfusion habs, fun habs => Bool.noConfusion habs⟩

theorem predOk_snoc_synth (tr : List Entry) (r : ExecutionResult) (hpos : 0 < tr.length)
    (hprev : (isBuildE (lastE tr) = true ∧ succE (lastE tr) = true) ∨
             (isCdktfGetE (lastE tr) = true ∧ succE (lastE tr) = true)) :
    predOk (tr ++ [⟨"npm", ["run", "synth"], r⟩]) tr.length := by
  unfold predOk
  rw [entryAt_snoc, entryAt_append_lt tr _ (tr.length - 1) (by omega)]
  exact ⟨fun habs => Bool.noConfusion habs, fun habs => Bool.noConfusion habs,
    fun _ => ⟨hpos, hprev⟩, fun habs => Bool.noConfusion habs,
    fun habs => Bool.noConfusion habs, fun habs => Bool.noConfusion habs⟩

theorem predOk_snoc_destroy (tr : List Entry) (r : ExecutionResult) (hpos : 0 < tr.length)
    (h1 : isDeployE (lastE tr) = true) (h2 : succE (lastE tr) = false) :
    predOk (tr ++ [⟨"npm", ["run", "destroy"], r⟩]) tr.length := by
  unfold predOk
  rw [entryAt_snoc, entryAt_append_lt tr _ (tr.length - 1) (by omega)]
  exact ⟨fun habs => Bool.noConfusion habs, fun habs => Bool.noConfusion habs,
    fun habs => Bool.noConfusion habs, fun _ => ⟨hpos, h1, h2⟩,
    fun habs => Bool.noConfusion habs, fun habs => Bool.noConfusion habs⟩

theorem predOk_snoc_gofmt (tr : List Entry) (r : ExecutionResult) (hpos : 0 < tr.length)
    (h1 : isLintE (lastE tr) = true) (h2 : succE (lastE tr) = false) :
    predOk (tr ++ [⟨"gofmt", ["-w", "."], r⟩]) tr.length := by
  unfold predOk
  rw [entryAt_snoc, entryAt_append_lt tr _ (tr.length - 1) (by omega)]
  exact ⟨fun habs => Bool.noConfusion habs, fun habs => Bool.noConfusion habs,
    fun habs => Bool.noConfusion habs, fun habs => Bool.noConfusion habs,
    fun _ => ⟨hpos, h1, h2⟩, fun habs => Bool.noConfusion habs⟩

theorem predOk_snoc_cdktfget (tr : List Entry) (r : ExecutionResult) (hpos : 0 < tr.length)
    (h1 : isSynthE (lastE tr) = true) (h2 : succE (lastE tr) = false) :
    predOk (tr ++ [⟨"npx", ["cdktf", "get"], r⟩]) tr.length := by
  unfold predOk
  rw [entryAt_snoc, entryAt_append_lt tr _ (tr.length - 1) (by omega)]
  exact ⟨fun habs => Bool.noConfusion habs, fun habs => Bool.noConfusion habs,
    fun habs => Bool.noConfusion habs, fun habs => Bool.noConfusion habs,
    fun habs => Bool.noConfusion habs, fun _ => ⟨hpos, h1, h2⟩⟩

theorem attemptBuildFix_trace (o : Oracle) (r : ExecutionResult) (s : ExecState)
    (h : TraceOk s.trace) :
    TraceOk (attemptBuildFix o r s).2.trace ∧
    s.trace.length ≤ (attemptBuildFix o r s).2.trace.length := by
  simp only [attemptBuildFix, executeCommand]
  split
  · exact ⟨traceOk_snoc _ _ h (predOk_snoc_un _ _ ⟨rfl, rfl, rfl, rfl, rfl, rfl⟩), by simp⟩
  · split
    · split
      · refine ⟨traceOk_snoc _ _
          (traceOk_snoc _ _ h (predOk_snoc_un _ _ ⟨rfl, rfl, rfl, rfl, rfl, rfl⟩))
          (predOk_snoc_un _ _ ⟨rfl, rfl, rfl, rfl, rfl, rfl⟩), by simp⟩
      · exact ⟨traceOk_snoc _ _ h (predOk_snoc_un _ _ ⟨rfl, rfl, rfl, rfl, rfl, rfl⟩), by simp⟩
    · exact ⟨h, le_refl _⟩

theorem attemptSynthFix_trace (o : Oracle) (r : ExecutionResult) (s : ExecState)
    (h : TraceOk s.trace) (hpos : 0 < s.trace.length)
    (h1 : isSynthE (lastE s.trace) = true) (h2 : succE (lastE s.trace) = false) :
    TraceOk (attemptSynthFix o r s).2.trace ∧
    s.trace.length ≤ (attemptSynthFix o r s).2.trace.length ∧
    ((attemptSynthFix o r s).1.success = true →
      isCdktfGetE (lastE (attemptSynthFix o r s).2.trace) = true ∧
      succE (lastE (attemptSynthFix o r s).2.trace) = true) := by
  simp only [attemptSynthFix, executeCommand]
  split
  · refine ⟨traceOk_snoc _ _ h (predOk_snoc_cdktfget s.trace _ hpos h1 h2), by simp, ?_⟩
    intro hsucc
    rw [lastE_snoc]
    exact ⟨rfl, hsucc⟩
  · exact ⟨h, le_refl _, fun hsucc => Bool.noConfusion hsucc⟩

theorem attemptLintFix_trace (o : Oracle) (r : ExecutionResult) (s : ExecState)
    (h : TraceOk s.trace) (hpos : 0 < s.trace.length)
    (h1 : isLintE (lastE s.trace) = true) (h2 : succE (lastE s.trace) = false) :
    TraceOk (attemptLintFix o r s).2.trace ∧
    s.trace.length ≤ (attemptLintFix o r s).2.trace.length ∧
    ((attemptLintFix o r s).1.success = true →
      isGofmtE (lastE (attemptLintFix o r s).2.trace) = true ∧
      succE (lastE (attemptLintFix o r s).2.trace) = true) := by
  simp only [attemptLintFix, executeCommand]
  split
  · refine ⟨traceOk_snoc _ _ h (predOk_snoc_gofmt s.trace _ hpos h1 h2), by simp, ?_⟩
    intro hsucc
    rw [lastE_snoc]
    exact ⟨rfl, hsucc⟩
  · exact ⟨h, le_refl _, fun hsucc => Bool.noConfusion hsucc⟩

theorem attemptDeployFix_trace (o : Oracle) (r : ExecutionResult) (s : ExecState)
    (h : TraceOk s.trace) (hpos : 0 < s.trace.length)
    (h1 : isDeployE (lastE s.trace) = true) (h2 : succE (lastE s.trace) = false) :
    TraceOk (attemptDeployFix o r s).2.trace ∧
    s.trace.length ≤ (attemptDeployFix o r s).2.trace.length ∧
    ((attemptDeployFix o r s).1.success = true →
      isDestroyE (lastE (attemptDeployFix o r s).2.trace) = true ∧
      succE (lastE (attemptDeployFix o r s).2.trace) = true) := by
  simp only [attemptDeployFix, executeCommand]
  split
  · exact ⟨h, le_refl _, fun hsucc => Bool.noConfusion hsucc⟩
  · split
    · refine ⟨traceOk_snoc _ _ h (predOk_snoc_destroy s.trace _ hpos h1 h2), by simp, ?_⟩
      intro hsucc
      rw [lastE_snoc]
      exact ⟨rfl, hsucc⟩
    · exact ⟨h, le_refl _, fun hsucc => Bool.noConfusion hsucc⟩

theorem phaseStep_build (o : Oracle) (s : ExecState) (h : TraceOk s.trace) :
    TraceOk (phaseStep o "npm" ["run", "build"] attemptBuildFix s).2.trace ∧
    0 < (phaseStep o "npm" ["run", "build"] attemptBuildFix s).2.trace.length ∧
    ((phaseStep o "npm" ["run", "build"] attemptBuildFix s).1.success = true →
      isBuildE (lastE (phaseStep o "npm" ["run", "build"] attemptBuildFix s).2.trace) = true ∧
      succE (lastE (phaseStep o "npm" ["run", "build"] attemptBuildFix s).2.trace) = true) := by
  simp only [phaseStep, executeCommand]
  split
  · refine ⟨traceOk_snoc _ _ h (predOk_snoc_un _ _ ⟨rfl, rfl, rfl, rfl, rfl, rfl⟩), by simp, ?_⟩
    intro hsucc
    rw [lastE_snoc]
    exact ⟨rfl, hsucc⟩
  · rename_i hfail
    have h1 : TraceOk (s.trace ++ [⟨"npm", ["run", "build"], o s.trace.length⟩]) :=
      traceOk_snoc _ _ h (predOk_snoc_un _ _ ⟨rfl, rfl, rfl, rfl, rfl, rfl⟩)
    have hfix := attemptBuildFix_trace o (o s.trace.length)
      ⟨s.trace ++ [⟨"npm", ["run", "build"], o s.trace.length⟩]⟩ h1
    split
    · refine ⟨traceOk_snoc _ _ hfix.1 (predOk_snoc_un _ _ ⟨rfl, rfl, rfl, rfl, rfl, rfl⟩),
        by simp, ?_⟩
      intro hsucc
      rw [lastE_snoc]
      exact ⟨rfl, hsucc⟩
    · refine ⟨hfix.1, ?_, fun hsucc => absurd hsucc hfail⟩
      exact Nat.lt_of_lt_of_le (by simp) hfix.2

theorem phaseStep_synth (o : Oracle) (s : ExecState) (h : TraceOk s.trace)
    (hpos : 0 < s.trace.length)
    (hb1 : isBuildE (lastE s.trace) = true) (hb2 : succE (lastE s.trace) = true) :
    TraceOk (phaseStep o "npm" ["run", "synth"] attemptSynthFix s).2.trace ∧
    0 < (phaseStep o "npm" ["run", "synth"] attemptSynthFix s).2.trace.length ∧
    ((phaseStep o "npm" ["run", "synth"] attemptSynthFix s).1.success = true →
      isSynthE (lastE (phaseStep o "npm" ["run", "synth"] attemptSynthFix s).2.trace) = true ∧
      succE (lastE (phaseStep o "npm" ["run", "synth"] attemptSynthFix s).2.trace) = true) := by
  simp only [phaseStep, executeCommand]
  split
  · refine ⟨traceOk_snoc _ _ h (predOk_snoc_synth s.trace _ hpos (Or.inl ⟨hb1, hb2⟩)),
      by simp, ?_⟩
    intro hsucc
    rw [lastE_snoc]
    exact ⟨rfl, hsucc⟩
  · rename_i hfail
    have hf : (o s.trace.length).success = false := by simpa using hfail
    have h1 : TraceOk (s.trace ++ [⟨"npm", ["run", "synth"], o s.trace.length⟩]) :=
      traceOk_snoc _ _ h (predOk_snoc_synth s.trace _ hpos (Or.inl ⟨hb1, hb2⟩))
    have hfix := attemptSynthFix_trace o (o s.trace.length)
      ⟨s.trace ++ [⟨"npm", ["run", "synth"], o s.trace.length⟩]⟩ h1
      (by simp) (by rw [lastE_snoc]; rfl) (by rw [lastE_snoc]; exact hf)
    split
    · rename_i hfs
      obtain ⟨hcg1, hcg2⟩ := hfix.2.2 hfs
      have hpos2 : 0 < (attemptSynthFix o (o s.trace.length)
          ⟨s.trace ++ [⟨"npm", ["run", "synth"], o s.trace.length⟩]⟩).2.trace.length := by
        exact Nat.lt_of_lt_of_le (by simp) hfix.2.1
      refine ⟨traceOk_snoc _ _ hfix.1
        (predOk_snoc_synth _ _ hpos2 (Or.inr ⟨hcg1, hcg2⟩)), by simp, ?_⟩
      intro hsucc
      rw [lastE_snoc]
      exact ⟨rfl, hsucc⟩
    · refine ⟨hfix.1, ?_, fun hsucc => absurd hsucc hfail⟩
      exact Nat.lt_of_lt_of_le (by simp) hfix.2.1

theorem phaseStep_lint (o : Oracle) (s : ExecState) (h : TraceOk s.trace)
    (hpos : 0 < s.trace.length)
    (hb1 : isSynthE (lastE s.trace) = true) (hb2 : succE (lastE s.trace) = true) :
    TraceOk (phaseStep o "npm" ["run", "lint"] attemptLintFix s).2.trace ∧
    0 < (phaseStep o "npm" ["run", "lint"] attemptLintFix s).2.trace.length ∧
    ((phaseStep o "npm" ["run", "lint"] attemptLintFix s).1.success = true →
      isLintE (lastE (phaseStep o "npm" ["run", "lint"] attemptLintFix s).2.trace) = true ∧
      succE (lastE (phaseStep o "npm" ["run", "lint"] attemptLintFix s).2.trace) = true) := by
  simp only [phaseStep, executeCommand]
  split
  · refine ⟨traceOk_snoc _ _ h (predOk_snoc_lint s.trace _ hpos (Or.inl ⟨hb1, hb2⟩)),
      by simp, ?_⟩
    intro hsucc
    rw [lastE_snoc]
    exact ⟨rfl, hsucc⟩
  · rename_i hfail
    have hf : (o s.trace.length).success = false := by simpa using hfail
    have h1 : TraceOk (s.trace ++ [⟨"npm", ["run", "lint"], o s.trace.length⟩]) :=
      traceOk_snoc _ _ h (predOk_snoc_lint s.trace _ hpos (Or.inl ⟨hb1, hb2⟩))
    have hfix := attemptLintFix_trace o (o s.trace.length)
      ⟨s.trace ++ [⟨"npm", ["run", "lint"], o s.trace.length⟩]⟩ h1
      (by simp) (by rw [lastE_snoc]; rfl) (by rw [lastE_snoc]; exact hf)
    split
    · rename_i hfs
      obtain ⟨hcg1, hcg2⟩ := hfix.2.2 hfs
      have hpos2 : 0 < (attemptLintFix o (o s.trace.length)
          ⟨s.trace ++ [⟨"npm", ["run", "lint"], o s.trace.length⟩]⟩).2.trace.length := by
        exact Nat.lt_of_lt_of_le (by simp) hfix.2.1
      refine ⟨traceOk_snoc _ _ hfix.1
        (predOk_snoc_lint _ _ hpos2 (Or.inr ⟨hcg1, hcg2⟩)), by simp, ?_⟩
      intro hsucc
      rw [lastE_snoc]
      exact ⟨rfl, hsucc⟩
    · refine ⟨hfix.1, ?_, fun hsucc => absurd hsucc hfail⟩
      exact Nat.lt_of_lt_of_le (by simp) hfix.2.1

theorem phaseStep_deploy (o : Oracle) (s : ExecState) (h : TraceOk s.trace)
    (hpos : 0 < s.trace.length)
    (hb1 : isLintE (lastE s.trace) = true) (hb2 : succE (lastE s.trace) = true) :
    TraceOk (phaseStep o "npm" ["run", "deploy"] attemptDeployFix s).2.trace := by
  simp only [phaseStep, executeCommand]
  split
  · exact traceOk_snoc _ _ h (predOk_snoc_deploy s.trace _ hpos (Or.inl ⟨hb1, hb2⟩))
  · rename_i hfail
    have hf : (o s.trace.length).success = false := by simpa using hfail
    have h1 : TraceOk (s.trace ++ [⟨"npm", ["run", "deploy"], o s.trace.length⟩]) :=
      traceOk_snoc _ _ h (predOk_snoc_deploy s.trace _ hpos (Or.inl ⟨hb1, hb2⟩))
    have hfix := attemptDeployFix_trace o (o s.trace.length)
      ⟨s.trace ++ [⟨"npm", ["run", "deploy"], o s.trace.length⟩]⟩ h1
      (by simp) (by rw [lastE_snoc]; rfl) (by rw [lastE_snoc]; exact hf)
    split
    · rename_i hfs
      obtain ⟨hcg1, hcg2⟩ := hfix.2.2 hfs
      have hpos2 : 0 < (attemptDeployFix o (o s.trace.length)
          ⟨s.trace ++ [⟨"npm", ["run", "deploy"], o s.trace.length⟩]⟩).2.trace.length := by
        exact Nat.lt_of_lt_of_le (by simp) hfix.2.1
      exact traceOk_snoc _ _ hfix.1
        (predOk_snoc_deploy _ _ hpos2 (Or.inr ⟨hcg1, hcg2⟩))
    · exact hfix.1

theorem onePass_traceOk (o : Oracle) (isLast : Bool) (results : Results) (s : ExecState)
    (h : TraceOk s.trace) : TraceOk (onePass o isLast results s).2.trace := by
  simp only [onePass]
  obtain ⟨hb1, hb2, hb3⟩ := phaseStep_build o s h
  split
  · split <;> exact hb1
  · rename_i hbf
    have hbs : (phaseStep o "npm" ["run", "build"] attemptBuildFix s).1.success = true := by
      simpa using hbf
    obtain ⟨hbl1, hbl2⟩ := hb3 hbs
    obtain ⟨hs1, hs2, hs3⟩ :=
      phaseStep_synth o (phaseStep o "npm" ["run", "build"] attemptBuildFix s).2 hb1 hb2 hbl1 hbl2
    split
    · split <;> exact hs1
    · rename_i hsf
      have hss : (phaseStep o "npm" ["run", "synth"] attemptSynthFix
          (phaseStep o "npm" ["run", "build"] attemptBuildFix s).2).1.success = true := by
        simpa using hsf
      obtain ⟨hsl1, hsl2⟩ := hs3 hss
      obtain ⟨hl1, hl2, hl3⟩ :=
        phaseStep_lint o (phaseStep o "npm" ["run", "synth"] attemptSynthFix
          (phaseStep o "npm" ["run", "build"] attemptBuildFix s).2).2 hs1 hs2 hsl1 hsl2
      split
      · split <;> exact hl1
      · rename_i hlf
        have hls : (phaseStep o "npm" ["run", "lint"] attemptLintFix
            (phaseStep o "npm" ["run", "synth"] attemptSynthFix
              (phaseStep o "npm" ["run", "build"] attemptBuildFix s).2).2).1.success = true := by
          simpa using hlf
        obtain ⟨hll1, hll2⟩ := hl3 hls
        exact phaseStep_deploy o (phaseStep o "npm" ["run", "lint"] attemptLintFix
          (phaseStep o "npm" ["run", "synth"] attemptSynthFix
            (phaseStep o "npm" ["run", "build"] attemptBuildFix s).2).2).2 hl1 hl2 hll1 hll2

theorem buildCycleGo_traceOk (o : Oracle) :
    ∀ (n : Nat) (results : Results) (s : ExecState), TraceOk s.trace →
      TraceOk (buildCycleGo o n results s).2.trace := by
  intro n
  induction n with
  | zero => intro results s h; exact h
  | succ n ih =>
    intro results s h
    have hp := onePass_traceOk o (n == 0) results s h
    cases ho : onePass o (n == 0) results s with
    | mk po s2 =>
      rw [ho] at hp
      cases po with
      | done r => simp only [buildCycleGo, ho]; exact hp
      | retry results2 => simp only [buildCycleGo, ho]; exact ih results2 s2 hp

theorem executeBuildCycle_traceOk (o : Oracle) (n : Nat) :
    TraceOk (executeBuildCycle o n ⟨[]⟩).2.trace :=
  buildCycleGo_traceOk o n ⟨none, none, none, none⟩ ⟨[]⟩ traceOk_nil

theorem chainBack (tr : List Entry) (A B R : Entry → Bool)
    (hA : ∀ i, A (entryAt tr i) = true → 0 < i ∧
      ((B (entryAt tr (i - 1)) = true ∧ succE (entryAt tr (i - 1)) = true) ∨
       (R (entryAt tr (i - 1)) = true ∧ succE (entryAt tr (i - 1)) = true)))
    (hR : ∀ i, R (entryAt tr i) = true → 0 < i ∧ A (entryAt tr (i - 1)) = true) :
    ∀ i, A (entryAt tr i) = true →
      ∃ j, j < i ∧ B (entryAt tr j) = true ∧ succE (entryAt tr j) = true ∧
        ∀ k, j < k → k < i → (A (entryAt tr k) = true ∨ R (entryAt tr k) = true) := by
  intro i
  induction i using Nat.strong_induction_on with
  | _ i ih =>
    intro hAi
    obtain ⟨hpos, hcase⟩ := hA i hAi
    rcases hcase with ⟨hB, hS⟩ | ⟨hRp, hS⟩
    · exact ⟨i - 1, by omega, hB, hS, fun k hk1 hk2 => absurd hk2 (by omega)⟩
    · obtain ⟨hpos2, hA2⟩ := hR (i - 1) hRp
      rw [show i - 1 - 1 = i - 2 from by omega] at hA2
      obtain ⟨j, hj, hBj, hSj, hbet⟩ := ih (i - 2) (by omega) hA2
      refine ⟨j, by omega, hBj, hSj, ?_⟩
      intro k hk1 hk2
      rcases Nat.lt_trichotomy k (i - 2) with hlt | heq | hgt
      · exact hbet k hk1 hlt
      · exact heq ▸ Or.inl hA2
      · have hk : k = i - 1 := by omega
        exact hk ▸ Or.inr hRp

theorem remote_deploy_needs_lint (ro : RemoteOracle)
    (hdep : ∃ e, e ∈ (executeRemoteBuildCycle ro ⟨[]⟩).2.rtrace ∧ e.cmd = "npm run deploy") :
    (executeRemoteBuildCycle ro ⟨[]⟩).2.rtrace.map RemoteEntry.cmd = remotePhaseCmds ∧
    ∀ j, j + 1 < (executeRemoteBuildCycle ro ⟨[]⟩).2.rtrace.length →
      ∃ r, ((executeRemoteBuildCycle ro ⟨[]⟩).2.rtrace.getD j dfltRE).outcome = .ok r ∧
        r.code = 0 := by
  obtain ⟨seg, htr, hmap, hlen, hadj, _⟩ := remoteShape ro ⟨[]⟩
  simp only [List.nil_append] at htr
  rw [htr] at hdep ⊢
  obtain ⟨e, he, hcmd⟩ := hdep
  have hmem : "npm run deploy" ∈ seg.map RemoteEntry.cmd := List.mem_map.mpr ⟨e, he, hcmd⟩
  rw [hmap] at hmem
  have h4 : seg.length = 4 := by
    rcases hl : seg.length with _ | _ | _ | _ | m
    · rw [hl] at hmem; exact absurd hmem (by decide)
    · rw [hl] at hmem; exact absurd hmem (by decide)
    · rw [hl] at hmem; exact absurd hmem (by decide)
    · rw [hl] at hmem; exact absurd hmem (by decide)
    · omega
  rw [h4] at hmap
  refine ⟨?_, hadj⟩
  rw [hmap]
  rfl

/-- C3: within every pass of the local Build Pipeline the Deploy command is
executed only after a successful Lint execution with only Deploy-phase
activity (Deploy runs and the teardown remedy) in between, Lint only after a
successful Synthesize execution, and Synthesize only after a successful Build
execution — so on an unrecovered failure of an earlier phase the remaining
phases of the pass never execute; in the remote pipeline the Deploy command
executes only as the fourth command after Build, Synthesize and Lint all
returned exit code 0. -/
theorem C3_theorem :
    (∀ (o : Oracle) (n : Nat) (i : Nat),
      (isDeployE (entryAt (executeBuildCycle o n ⟨[]⟩).2.trace i) = true →
        ∃ j, j < i ∧ isLintE (entryAt (executeBuildCycle o n ⟨[]⟩).2.trace j) = true ∧
          succE (entryAt (executeBuildCycle o n ⟨[]⟩).2.trace j) = true ∧
          ∀ k, j < k → k < i →
            (isDeployE (entryAt (executeBuildCycle o n ⟨[]⟩).2.trace k) = true ∨
             isDestroyE (entryAt (executeBuildCycle o n ⟨[]⟩).2.trace k) = true)) ∧
      (isLintE (entryAt (executeBuildCycle o n ⟨[]⟩).2.trace i) = true →
        ∃ j, j < i ∧ isSynthE (entryAt (executeBuildCycle o n ⟨[]⟩).2.trace j) = true ∧
          succE (entryAt (executeBuildCycle o n ⟨[]⟩).2.trace j) = true ∧
          ∀ k, j < k → k < i →
            (isLintE (entryAt (executeBuildCycle o n ⟨[]⟩).2.trace k) = true ∨
             isGofmtE (entryAt (executeBuildCycle o n ⟨[]⟩).2.trace k) = true)) ∧
      (isSynthE (entryAt (executeBuildCycle o n ⟨[]⟩).2.trace i) = true →
        ∃ j, j < i ∧ isBuildE (entryAt (executeBuildCycle o n ⟨[]⟩).2.trace j) = true ∧
          succE (entryAt (executeBuildCycle o n ⟨[]⟩).2.trace j) = true ∧
          ∀ k, j < k → k < i →
            (isSynthE (entryAt (executeBuildCycle o n ⟨[]⟩).2.trace k) = true ∨
             isCdktfGetE (entryAt (executeBuildCycle o n ⟨[]⟩).2.trace k) = true))) ∧
    (∀ ro : RemoteOracle,
      (∃ e, e ∈ (executeRemoteBuildCycle ro ⟨[]⟩).2.rtrace ∧ e.cmd = "npm run deploy") →
      (executeRemoteBuildCycle ro ⟨[]⟩).2.rtrace.map RemoteEntry.cmd = remotePhaseCmds ∧
      ∀ j, j + 1 < (executeRemoteBuildCycle ro ⟨[]⟩).2.rtrace.length →
        ∃ r, ((executeRemoteBuildCycle ro ⟨[]⟩).2.rtrace.getD j dfltRE).outcome = .ok r ∧
          r.code = 0) := by
  constructor
  · intro o n i
    have htr := executeBuildCycle_traceOk o n
    refine ⟨?_, ?_, ?_⟩
    · exact chainBack _ isDeployE isLintE isDestroyE
        (fun i2 hi2 => (htr i2).1 hi2)
        (fun i2 hi2 => ⟨((htr i2).2.2.2.1 hi2).1, ((htr i2).2.2.2.1 hi2).2.1⟩) i
    · exact chainBack _ isLintE isSynthE isGofmtE
        (fun i2 hi2 => (htr i2).2.1 hi2)
        (fun i2 hi2 => ⟨((htr i2).2.2.2.2.1 hi2).1, ((htr i2).2.2.2.2.1 hi2).2.1⟩) i
    · exact chainBack _ isSynthE isBuildE isCdktfGetE
        (fun i2 hi2 => (htr i2).2.2.1 hi2)
        (fun i2 hi2 => ⟨((htr i2).2.2.2.2.2 hi2).1, ((htr i2).2.2.2.2.2 hi2).2.1⟩) i
  · exact fun ro h => remote_deploy_needs_lint ro h

/-- C3 (witness): the deploy re-run at trace position 5 of the
conflict-then-teardown environment is preceded by a successful Lint at
position 2 with only Deploy-phase activity in between. -/
theorem C3_witness :
    ∃ j, j < 5 ∧ isLintE (entryAt (executeBuildCycle oC8 3 ⟨[]⟩).2.trace j) = true ∧
      succE (entryAt (executeBuildCycle oC8 3 ⟨[]⟩).2.trace j) = true ∧
      ∀ k, j < k → k < 5 →
        (isDeployE (entryAt (executeBuildCycle oC8 3 ⟨[]⟩).2.trace k) = true ∨
         isDestroyE (entryAt (executeBuildCycle oC8 3 ⟨[]⟩).2.trace k) = true) :=
  (C3_theorem.1 oC8 3 5).1 (by decide)

theorem runCycle_cycle (mode : Mode) (env : AgentEnv) (mc : Nat) (origP : String)
    (cycle : Nat) (p : String) (st : AgentSt) :
    (runCycle mode env mc origP cycle p st).1.cycle = cycle := by
  simp only [runCycle, runPipeline, afterBuild]
  repeat' split
  all_goals rfl

theorem runCycle_prompts (mode : Mode) (env : AgentEnv) (mc : Nat) (origP : String)
    (cycle : Nat) (p : String) (st : AgentSt) :
    (runCycle mode env mc origP cycle p st).2.2.2.prompts = st.prompts ++ [(cycle, p)] := by
  simp only [runCycle, runPipeline, afterBuild]
  repeat' split
  all_goals rfl

theorem runCycle_connected (mode : Mode) (env : AgentEnv) (mc : Nat) (origP : String)
    (cycle : Nat) (p : String) (st : AgentSt) :
    (runCycle mode env mc origP cycle p st).2.2.2.connected = st.connected := by
  simp only [runCycle, runPipeline, afterBuild]
  repeat' split
  all_goals rfl

theorem runCycle_invoked (mode : Mode) (env : AgentEnv) (mc : Nat) (origP : String)
    (cycle : Nat) (p : String) (st : AgentSt) :
    (runCycle mode env mc origP cycle p st).2.2.2.invoked =
      st.invoked ++ (match (runCycle mode env mc origP cycle p st).1.buildResult with
        | none => []
        | some _ => [cycle]) := by
  simp only [runCycle, runPipeline, afterBuild]
  repeat' split
  all_goals simp_all

theorem runCycle_brk_iff (mode : Mode) (env : AgentEnv) (mc : Nat) (origP : String)
    (cycle : Nat) (p : String) (st : AgentSt) :
    (runCycle mode env mc origP cycle p st).2.2.1 = true ↔
      ((runCycle mode env mc origP cycle p st).1.success = true ∧
       checkDeploymentExpectations origP
         ((runCycle mode env mc origP cycle p st).1.deploymentOutputs.getD []) = true) := by
  have hnil : ∀ q : String, checkDeploymentExpectations q [] = false := fun _ => rfl
  simp only [runCycle, runPipeline, afterBuild]
  repeat' split
  all_goals simp_all [hnil]

theorem runCycle_local_outputs (env : AgentEnv) (mc : Nat) (origP : String)
    (cycle : Nat) (p : String) (st : AgentSt) :
    (runCycle .localM env mc origP cycle p st).1.deploymentOutputs = none ∨
    (runCycle .localM env mc origP cycle p st).1.deploymentOutputs = some [] := by
  simp only [runCycle, runPipeline, afterBuild]
  repeat' split
  all_goals simp

theorem runCycle_buildFail (mode : Mode) (env : AgentEnv) (mc : Nat) (origP : String)
    (cycle : Nat) (p : String) (st : AgentSt) (rec2 : CycleResult) (p2 : String)
    (brk : Bool) (st2 : AgentSt) (br : BuildRes)
    (hrc : runCycle mode env mc origP cycle p st = (rec2, p2, brk, st2))
    (h1 : rec2.buildResult = some br) (h2 : br.successFlag = false) (h3 : cycle < mc) :
    p2 = generateFixPrompt p (some br) ∧ brk = false := by
  simp only [runCycle, runPipeline, afterBuild] at hrc
  repeat' split at hrc
  all_goals
    (simp only [Prod.mk.injEq] at hrc
     obtain ⟨e1, e2, e3, e4⟩ := hrc
     subst e1
     subst e2
     subst e3
     subst e4)
  all_goals simp_all

theorem runCycle_valFail (mode : Mode) (env : AgentEnv) (mc : Nat) (origP : String)
    (cycle : Nat) (p : String) (st : AgentSt)
    (hg : (env.genO cycle).success = true)
    (hv : (validateGeneratedCode env.jsonParses (env.genO cycle).files).valid = false) :
    (runCycle mode env mc origP cycle p st).1.success = false ∧
    (runCycle mode env mc origP cycle p st).1.buildResult = none ∧
    (runCycle mode env mc origP cycle p st).2.1 = p ∧
    (runCycle mode env mc origP cycle p st).2.2.1 = false ∧
    (runCycle mode env mc origP cycle p st).2.2.2.invoked = st.invoked := by
  simp only [runCycle]
  rw [if_neg (by simp [hg]), if_pos hv]
  exact ⟨rfl, rfl, rfl, rfl, rfl⟩

theorem agentGo_length (mode : Mode) (env : AgentEnv) (mc : Nat) (origP : String) :
    ∀ (n cycle : Nat) (p : String) (st : AgentSt),
      (agentGo mode env mc origP n cycle p st).1.length ≤ n := by
  intro n
  induction n with
  | zero => intro cycle p st; simp [agentGo]
  | succ n ih =>
    intro cycle p st
    simp only [agentGo]
    split
    · simp
    · simp only [List.length_cons]
      exact Nat.succ_le_succ (ih _ _ _)

theorem agentGo_cycle (mode : Mode) (env : AgentEnv) (mc : Nat) (origP : String) :
    ∀ (n cycle : Nat) (p : String) (st : AgentSt) (i : Nat),
      i < (agentGo mode env mc origP n cycle p st).1.length →
      ((agentGo mode env mc origP n cycle p st).1.getD i dummyRec).cycle = cycle + i := by
  intro n
  induction n with
  | zero => intro cycle p st i h; simp [agentGo] at h
  | succ n ih =>
    intro cycle p st i
    simp only [agentGo]
    split
    · intro h
      have hi : i = 0 := by simpa using h
      subst hi
      simpa using runCycle_cycle mode env mc origP cycle p st
    · intro h
      cases i with
      | zero => simpa using runCycle_cycle mode env mc origP cycle p st
      | succ i =>
        have h2 : i < (agentGo mode env mc origP n (cycle + 1)
            (runCycle mode env mc origP cycle p st).2.1
            (runCycle mode env mc origP cycle p st).2.2.2).1.length := by
          simpa using h
        have hg := ih (cycle + 1) (runCycle mode env mc origP cycle p st).2.1
          (runCycle mode env mc origP cycle p st).2.2.2 i h2
        simp only [List.getD_cons_succ]
        rw [hg]
        omega

theorem agentGo_pos (mode : Mode) (env : AgentEnv) (mc : Nat) (origP : String) :
    ∀ (n cycle : Nat) (p : String) (st : AgentSt), 0 < n →
      0 < (agentGo mode env mc origP n cycle p st).1.length := by
  intro n
  cases n with
  | zero => intro cycle p st h; exact (Nat.lt_irrefl 0 h).elim
  | succ n =>
    intro cycle p st _
    simp only [agentGo]
    split <;> simp

theorem agentGo_term_last (mode : Mode) (env : AgentEnv) (mc : Nat) (origP : String) :
    ∀ (n cycle : Nat) (p : String) (st : AgentSt) (i : Nat),
      i < (agentGo mode env mc origP n cycle p st).1.length →
      terminating origP ((agentGo mode env mc origP n cycle p st).1.getD i dummyRec) →
      i + 1 = (agentGo mode env mc origP n cycle p st).1.length := by
  intro n
  induction n with
  | zero => intro cycle p st i h; simp [agentGo] at h
  | succ n ih =>
    intro cycle p st i
    simp only [agentGo]
    split
    · intro h _
      have hi : i = 0 := by simpa using h
      simp [hi]
    · rename_i hbrk
      intro h hterm
      cases i with
      | zero =>
        exfalso
        exact hbrk ((runCycle_brk_iff mode env mc origP cycle p st).mpr hterm)
      | succ i =>
        have h2 : i < (agentGo mode env mc origP n (cycle + 1)
            (runCycle mode env mc origP cycle p st).2.1
            (runCycle mode env mc origP cycle p st).2.2.2).1.length := by
          simpa using h
        have := ih (cycle + 1) (runCycle mode env mc origP cycle p st).2.1
          (runCycle mode env mc origP cycle p st).2.2.2 i h2 (by simpa using hterm)
        simp only [List.length_cons]
        omega

theorem agentGo_continue (mode : Mode) (env : AgentEnv) (mc : Nat) (origP : String) :
    ∀ (n cycle : Nat) (p : String) (st : AgentSt) (i : Nat),
      i < (agentGo mode env mc origP n cycle p st).1.length →
      ¬ terminating origP ((agentGo mode env mc origP n cycle p st).1.getD i dummyRec) →
      i + 1 < n → i + 1 < (agentGo mode env mc origP n cycle p st).1.length := by
  intro n
  induction n with
  | zero => intro cycle p st i h; simp [agentGo] at h
  | succ n ih =>
    intro cycle p st i
    simp only [agentGo]
    split
    · rename_i hbrk
      intro h hnt _
      have hi : i = 0 := by simpa using h
      subst hi
      exact absurd ((runCycle_brk_iff mode env mc origP cycle p st).mp hbrk) hnt
    · rename_i hbrk
      intro h hnt hn
      cases i with
      | zero =>
        simp only [List.length_cons]
        have := agentGo_pos mode env mc origP n (cycle + 1)
          (runCycle mode env mc origP cycle p st).2.1
          (runCycle mode env mc origP cycle p st).2.2.2 (by omega)
        omega
      | succ i =>
        have h2 : i < (agentGo mode env mc origP n (cycle + 1)
            (runCycle mode env mc origP cycle p st).2.1
            (runCycle mode env mc origP cycle p st).2.2.2).1.length := by
          simpa using h
        have := ih (cycle + 1) (runCycle mode env mc origP cycle p st).2.1
          (runCycle mode env mc origP cycle p st).2.2.2 i h2 (by simpa using hnt) (by omega)
        simp only [List.length_cons]
        omega

theorem agentGo_connected (mode : Mode) (env : AgentEnv) (mc : Nat) (origP : String) :
    ∀ (n cycle : Nat) (p : String) (st : AgentSt),
      (agentGo mode env mc origP n cycle p st).2.connected = st.connected := by
  intro n
  induction n with
  | zero => intro cycle p st; rfl
  | succ n ih =>
    intro cycle p st
    simp only [agentGo]
    split
    · exact runCycle_connected mode env mc origP cycle p st
    · exact (ih (cycle + 1) _ _).trans (runCycle_connected mode env mc origP cycle p st)

theorem agentGo_record_src (mode : Mode) (env : AgentEnv) (mc : Nat) (origP : String) :
    ∀ (n cycle : Nat) (p : String) (st : AgentSt) (i : Nat),
      i < (agentGo mode env mc origP n cycle p st).1.length →
      ∃ (p2 : String) (st2 : AgentSt),
        (agentGo mode env mc origP n cycle p st).1.getD i dummyRec =
          (runCycle mode env mc origP (cycle + i) p2 st2).1 := by
  intro n
  induction n with
  | zero => intro cycle p st i h; simp [agentGo] at h
  | succ n ih =>
    intro cycle p st i
    simp only [agentGo]
    split
    · intro h
      have hi : i = 0 := by simpa using h
      subst hi
      exact ⟨p, st, rfl⟩
    · intro h
      cases i with
      | zero => exact ⟨p, st, rfl⟩
      | succ i =>
        have h2 : i < (agentGo mode env mc origP n (cycle + 1)
            (runCycle mode env mc origP cycle p st).2.1
            (runCycle mode env mc origP cycle p st).2.2.2).1.length := by
          simpa using h
        obtain ⟨p2, st2, hs⟩ := ih (cycle + 1) (runCycle mode env mc origP cycle p st).2.1
          (runCycle mode env mc origP cycle p st).2.2.2 i h2
        refine ⟨p2, st2, ?_⟩
        simp only [List.getD_cons_succ]
        rw [show cycle + (i + 1) = cycle + 1 + i from by omega]
        exact hs

theorem agentGo_invoked_sub (mode : Mode) (env : AgentEnv) (mc : Nat) (origP : String) :
    ∀ (n cycle : Nat) (p : String) (st : AgentSt) (c : Nat),
      c ∈ (agentGo mode env mc origP n cycle p st).2.invoked →
      c ∈ st.invoked ∨ ∃ i, i < (agentGo mode env mc origP n cycle p st).1.length ∧
        ((agentGo mode env mc origP n cycle p st).1.getD i dummyRec).cycle = c ∧
        ((agentGo mode env mc origP n cycle p st).1.getD i dummyRec).buildResult ≠ none := by
  intro n
  induction n with
  | zero => intro cycle p st c hc; exact Or.inl hc
  | succ n ih =>
    intro cycle p st c
    simp only [agentGo]
    split
    · intro hc
      rw [runCycle_invoked mode env mc origP cycle p st] at hc
      rcases List.mem_append.mp hc with hl | hr
      · exact Or.inl hl
      · right
        cases hb : (runCycle mode env mc origP cycle p st).1.buildResult with
        | none => rw [hb] at hr; cases hr
        | some v =>
          rw [hb] at hr
          have hc2 : c = cycle := by simpa using hr
          refine ⟨0, by simp, ?_, ?_⟩
          · simpa [hc2] using runCycle_cycle mode env mc origP cycle p st
          · simp [hb]
    · intro hc
      rcases ih (cycle + 1) (runCycle mode env mc origP cycle p st).2.1
          (runCycle mode env mc origP cycle p st).2.2.2 c hc with hl | ⟨i, h2, he1, he2⟩
      · rw [runCycle_invoked mode env mc origP cycle p st] at hl
        rcases List.mem_append.mp hl with hll | hlr
        · exact Or.inl hll
        · right
          cases hb : (runCycle mode env mc origP cycle p st).1.buildResult with
          | none => rw [hb] at hlr; cases hlr
          | some v =>
            rw [hb] at hlr
            have hc2 : c = cycle := by simpa using hlr
            refine ⟨0, by simp, ?_, ?_⟩
            · simpa [hc2] using runCycle_cycle mode env mc origP cycle p st
            · simp [hb]
      · right
        refine ⟨i + 1, by simp only [List.length_cons]; omega, ?_, ?_⟩
        · simpa only [List.getD_cons_succ] using he1
        · simpa only [List.getD_cons_succ] using he2

theorem agentGo_local_length (env : AgentEnv) (mc : Nat) (origP : String) :
    ∀ (n cycle : Nat) (p : String) (st : AgentSt),
      (agentGo .localM env mc origP n cycle p st).1.length = n := by
  have hnil : ∀ q : String, checkDeploymentExpectations q [] = false := fun _ => rfl
  intro n
  induction n with
  | zero => intro cycle p st; rfl
  | succ n ih =>
    intro cycle p st
    simp only [agentGo]
    split
    · rename_i hbrk
      exfalso
      obtain ⟨hsucc, hchk⟩ := (runCycle_brk_iff .localM env mc origP cycle p st).mp hbrk
      rcases runCycle_local_outputs env mc origP cycle p st with ho | ho <;>
        (rw [ho] at hchk; simp [hnil] at hchk)
    · simp only [List.length_cons]
      rw [ih]

theorem agentGo_local_outputs (env : AgentEnv) (mc : Nat) (origP : String) :
    ∀ (n cycle : Nat) (p : String) (st : AgentSt) (r : CycleResult),
      r ∈ (agentGo .localM env mc origP n cycle p st).1 →
      r.deploymentOutputs = none ∨ r.deploymentOutputs = some [] := by
  intro n
  induction n with
  | zero => intro cycle p st r hr; simp [agentGo] at hr
  | succ n ih =>
    intro cycle p st r
    simp only [agentGo]
    split
    · intro hr
      have he : r = (runCycle .localM env mc origP cycle p st).1 := by simpa using hr
      rw [he]
      exact runCycle_local_outputs env mc origP cycle p st
    · intro hr
      rcases List.mem_cons.mp hr with he | hm
      · rw [he]
        exact runCycle_local_outputs env mc origP cycle p st
      · exact ih (cycle + 1) _ _ r hm

theorem agentGo_prompts (mode : Mode) (env : AgentEnv) (mc : Nat) (origP : String) :
    ∀ (n cycle : Nat) (p : String) (st : AgentSt),
      ∃ L : List (Nat × String),
        (agentGo mode env mc origP n cycle p st).2.prompts = st.prompts ++ L ∧
        L.length = (agentGo mode env mc origP n cycle p st).1.length ∧
        (0 < L.length → L.getD 0 (0, "") = (cycle, p)) ∧
        (∀ i br, i < (agentGo mode env mc origP n cycle p st).1.length →
          i + 1 < L.length →
          ((agentGo mode env mc origP n cycle p st).1.getD i dummyRec).buildResult = some br →
          br.successFlag = false →
          ((agentGo mode env mc origP n cycle p st).1.getD i dummyRec).cycle < mc →
          (L.getD (i + 1) (0, "")).2 = generateFixPrompt (L.getD i (0, "")).2 (some br)) := by
  intro n
  induction n with
  | zero =>
    intro cycle p st
    refine ⟨[], by simp [agentGo], rfl, by simp, ?_⟩
    intro i br h
    simp [agentGo] at h
  | succ n ih =>
    intro cycle p st
    simp only [agentGo]
    split
    · refine ⟨[(cycle, p)], runCycle_prompts mode env mc origP cycle p st, rfl,
        fun _ => rfl, ?_⟩
      intro i br hi hi1
      simp at hi1
    · obtain ⟨L, hL1, hL2, hL3, hL4⟩ := ih (cycle + 1)
        (runCycle mode env mc origP cycle p st).2.1
        (runCycle mode env mc origP cycle p st).2.2.2
      refine ⟨(cycle, p) :: L, ?_, ?_, fun _ => rfl, ?_⟩
      · rw [hL1, runCycle_prompts mode env mc origP cycle p st]
        simp
      · simp only [List.length_cons, hL2]
      · intro i br hi hi1 hbr hfl hcy
        cases i with
        | zero =>
          have hbf := runCycle_buildFail mode env mc origP cycle p st
            (runCycle mode env mc origP cycle p st).1
            (runCycle mode env mc origP cycle p st).2.1
            (runCycle mode env mc origP cycle p st).2.2.1
            (runCycle mode env mc origP cycle p st).2.2.2 br rfl
            (by simpa using hbr) hfl
            (by simpa [runCycle_cycle] using hcy)
          have hL0 : L.getD 0 (0, "") =
              (cycle + 1, (runCycle mode env mc origP cycle p st).2.1) :=
            hL3 (by simp only [List.length_cons] at hi1; omega)
          simp only [List.getD_cons_succ, List.getD_cons_zero]
          rw [hL0]
          exact hbf.1
        | succ i =>
          have := hL4 i br (by simpa using hi)
            (by simp only [List.length_cons] at hi1; omega)
            (by simpa using hbr) hfl (by simpa using hcy)
          simpa only [List.getD_cons_succ] using this

theorem connectSSH_state (env : AgentEnv) (st : AgentSt) :
    (connectSSH env st).2.prompts = st.prompts ∧ (connectSSH env st).2.invoked = st.invoked := by
  unfold connectSSH
  cases env.connectO <;> exact ⟨rfl, rfl⟩

theorem setupRemoteAgent_state (env : AgentEnv) (st : AgentSt) :
    (setupRemoteAgent env st).2.prompts = st.prompts ∧
    (setupRemoteAgent env st).2.invoked = st.invoked := ⟨rfl, rfl⟩

theorem disconnectSSH_state (st : AgentSt) :
    (disconnectSSH st).prompts = st.prompts ∧ (disconnectSSH st).invoked = st.invoked ∧
    (disconnectSSH st).connected = false := by
  unfold disconnectSSH
  split
  · exact ⟨rfl, rfl, rfl⟩
  · rename_i h
    exact ⟨rfl, rfl, by simpa using h⟩

theorem executeAgentCycle_ok (mode : Mode) (env : AgentEnv) (mc : Nat) (p : String)
    (rs : List CycleResult)
    (h : (executeAgentCycle mode env mc p).1 = Except.ok rs) :
    ∃ st0 : AgentSt, st0.prompts = [] ∧ st0.invoked = [] ∧
      rs = (agentGo mode env mc p mc 1 p st0).1 ∧
      (executeAgentCycle mode env mc p).2.prompts =
        (agentGo mode env mc p mc 1 p st0).2.prompts ∧
      (executeAgentCycle mode env mc p).2.invoked =
        (agentGo mode env mc p mc 1 p st0).2.invoked := by
  cases mode with
  | localM =>
    refine ⟨initSt, rfl, rfl, ?_, rfl, rfl⟩
    simp only [executeAgentCycle] at h
    injection h with h
    exact h.symm
  | remoteM =>
    cases hc : connectSSH env initSt with
    | mk ec stc =>
      cases ec with
      | error e =>
        simp only [executeAgentCycle, hc] at h
        exact Except.noConfusion h
      | ok u =>
        cases hs : setupRemoteAgent env stc with
        | mk es sts =>
          cases es with
          | error e =>
            simp only [executeAgentCycle, hc, hs] at h
            exact Except.noConfusion h
          | ok u2 =>
            simp only [executeAgentCycle, hc, hs] at h
            injection h with h
            have hp1 : stc.prompts = [] := by
              have := (connectSSH_state env initSt).1
              rw [hc] at this
              exact this
            have hi1 : stc.invoked = [] := by
              have := (connectSSH_state env initSt).2
              rw [hc] at this
              exact this
            have hp2 : sts.prompts = [] := by
              have := (setupRemoteAgent_state env stc).1
              rw [hs] at this
              exact this.trans hp1
            have hi2 : sts.invoked = [] := by
              have := (setupRemoteAgent_state env stc).2
              rw [hs] at this
              exact this.trans hi1
            refine ⟨sts, hp2, hi2, h.symm, ?_, ?_⟩
            · simp only [executeAgentCycle, hc, hs]
              exact (disconnectSSH_state _).1
            · simp only [executeAgentCycle, hc, hs]
              exact (disconnectSSH_state _).2.1

theorem validateGeneratedCode_valid_iff (j : String → Bool) (files : List (String × String)) :
    (validateGeneratedCode j files).valid = (validateGeneratedCode j files).errors.isEmpty :=
  rfl

theorem validate_fails (j : String → Bool) (files : List (String × String))
    (h : (∃ f, f ∈ requiredFiles ∧ jsLookup files f = none) ∨
         (∃ kv, kv ∈ files ∧ strEndsWith kv.1 ".go" = true ∧
           jsIncludes kv.2 "package " = false) ∨
         (∃ c, jsLookup files "cdk.json" = some c ∧ c ≠ "" ∧ j c = false)) :
    (validateGeneratedCode j files).valid = false := by
  have hmem : ∃ x, x ∈ (validateGeneratedCode j files).errors := by
    unfold validateGeneratedCode
    rcases h with ⟨f, hf, hl⟩ | ⟨kv, hkv, he, hp⟩ | ⟨c, hc, hne, hj⟩
    · refine ⟨"Missing required file: " ++ f, ?_⟩
      exact List.mem_append.mpr (Or.inl (List.mem_append.mpr (Or.inl
        (List.mem_filterMap.mpr ⟨f, hf, by simp [hl]⟩))))
    · refine ⟨kv.1 ++ ": Missing package declaration", ?_⟩
      exact List.mem_append.mpr (Or.inl (List.mem_append.mpr (Or.inr
        (List.mem_filterMap.mpr ⟨kv, hkv, by simp [he, hp]⟩))))
    · refine ⟨"cdk.json: Invalid JSON format", ?_⟩
      refine List.mem_append.mpr (Or.inr ?_)
      simp [hc, hne, hj]
  obtain ⟨x, hx⟩ := hmem
  rw [validateGeneratedCode_valid_iff]
  cases he : (validateGeneratedCode j files).errors with
  | nil => rw [he] at hx; cases hx
  | cons a l => rfl

/-- C4: every outer run of `executeAgentCycle` with `maxCycles ≥ 1` that
returns a record list produces at most `maxCycles` records, the records carry
strictly increasing cycle indices 1, 2, ..., and any record of a successfully
terminating cycle (success with expectations met against the original prompt)
is the last record, so the run stops at the first such cycle and the length
equals its index. -/
theorem C4_theorem : ∀ (mode : Mode) (env : AgentEnv) (mc : Nat) (p : String)
    (rs : List CycleResult), 1 ≤ mc →
    (executeAgentCycle mode env mc p).1 = Except.ok rs →
    rs.length ≤ mc ∧
    (∀ i, i < rs.length → (rs.getD i dummyRec).cycle = i + 1) ∧
    (∀ i, i < rs.length →
      (rs.getD i dummyRec).success = true →
      checkDeploymentExpectations p ((rs.getD i dummyRec).deploymentOutputs.getD []) = true →
      i + 1 = rs.length) := by
  intro mode env mc p rs hmc h
  obtain ⟨st0, _, _, hrs, _, _⟩ := executeAgentCycle_ok mode env mc p rs h
  subst hrs
  refine ⟨agentGo_length mode env mc p mc 1 p st0, ?_, ?_⟩
  · intro i hi
    rw [agentGo_cycle mode env mc p mc 1 p st0 i hi]
    omega
  · intro i hi hsucc hchk
    exact agentGo_term_last mode env mc p mc 1 p st0 i hi ⟨hsucc, hchk⟩

/-- C4 (witness): the theorem applied to a one-cycle all-success local run. -/
theorem C4_witness :
    rsW.length ≤ 1 ∧
    (∀ i, i < rsW.length → (rsW.getD i dummyRec).cycle = i + 1) ∧
    (∀ i, i < rsW.length →
      (rsW.getD i dummyRec).success = true →
      checkDeploymentExpectations "p" ((rsW.getD i dummyRec).deploymentOutputs.getD []) = true →
      i + 1 = rsW.length) :=
  C4_theorem .localM envW 1 "p" rsW (by omega) (by rfl)

/-- C10: in local execution mode deployment outputs are never collected
(every record's output mapping is absent or empty), hence the Expectation
Checker returns false in every cycle and the run never terminates early: a
local-mode run performs exactly `maxCycles` cycles. -/
theorem C10_theorem : ∀ (env : AgentEnv) (mc : Nat) (p : String),
    ∃ rs : List CycleResult,
      (executeAgentCycle .localM env mc p).1 = Except.ok rs ∧
      rs.length = mc ∧
      (∀ r, r ∈ rs → r.deploymentOutputs.getD [] = []) ∧
      (∀ r, r ∈ rs →
        checkDeploymentExpectations p (r.deploymentOutputs.getD []) = false) := by
  intro env mc p
  refine ⟨(agentGo .localM env mc p mc 1 p initSt).1, rfl,
    agentGo_local_length env mc p mc 1 p initSt, ?_, ?_⟩
  · intro r hr
    rcases agentGo_local_outputs env mc p mc 1 p initSt r hr with h | h <;> simp [h]
  · intro r hr
    rcases agentGo_local_outputs env mc p mc 1 p initSt r hr with h | h <;> (rw [h]; rfl)

/-- C7: a cycle whose generated file set fails structural validation (a
required file among `lib/tap_stack.go`, `bin/tap.go`, `cdk.json` absent, a
`.go` file lacking a package declaration, or a nonempty `cdk.json` that does
not parse) is recorded as failed with no build result, the Build Pipeline is
never invoked in that cycle, and when cycle budget remains the run proceeds
to a further cycle rather than aborting. -/
theorem C7_theorem : ∀ (mode : Mode) (env : AgentEnv) (mc : Nat) (p : String)
    (rs : List CycleResult) (i : Nat),
    (executeAgentCycle mode env mc p).1 = Except.ok rs →
    i < rs.length →
    (env.genO ((rs.getD i dummyRec).cycle)).success = true →
    ((∃ f, f ∈ requiredFiles ∧
        jsLookup (env.genO ((rs.getD i dummyRec).cycle)).files f = none) ∨
     (∃ kv, kv ∈ (env.genO ((rs.getD i dummyRec).cycle)).files ∧
        strEndsWith kv.1 ".go" = true ∧ jsIncludes kv.2 "package " = false) ∨
     (∃ c, jsLookup (env.genO ((rs.getD i dummyRec).cycle)).files "cdk.json" = some c ∧
        c ≠ "" ∧ env.jsonParses c = false)) →
    (validateGeneratedCode env.jsonParses
        (env.genO ((rs.getD i dummyRec).cycle)).files).valid = false ∧
    (rs.getD i dummyRec).success = false ∧
    (rs.getD i dummyRec).buildResult = none ∧
    (rs.getD i dummyRec).cycle ∉ (executeAgentCycle mode env mc p).2.invoked ∧
    ((rs.getD i dummyRec).cycle < mc → i + 1 < rs.length) := by
  intro mode env mc p rs i h hi hg hcat
  obtain ⟨st0, hp0, hi0, hrs, hpr, hin⟩ := executeAgentCycle_ok mode env mc p rs h
  subst hrs
  have hv := validate_fails env.jsonParses _ hcat
  obtain ⟨p2, st2, hsrc⟩ := agentGo_record_src mode env mc p mc 1 p st0 i hi
  have hcyc : ((agentGo mode env mc p mc 1 p st0).1.getD i dummyRec).cycle = 1 + i :=
    agentGo_cycle mode env mc p mc 1 p st0 i hi
  have hvf := runCycle_valFail mode env mc p
    ((agentGo mode env mc p mc 1 p st0).1.getD i dummyRec).cycle p2 st2 hg hv
  refine ⟨hv, ?_, ?_, ?_, ?_⟩
  · rw [show ((agentGo mode env mc p mc 1 p st0).1.getD i dummyRec) =
      (runCycle mode env mc p ((agentGo mode env mc p mc 1 p st0).1.getD i dummyRec).cycle
        p2 st2).1 from by rw [hcyc]; exact hcyc ▸ hsrc]
    exact hvf.1
  · rw [show ((agentGo mode env mc p mc 1 p st0).1.getD i dummyRec) =
      (runCycle mode env mc p ((agentGo mode env mc p mc 1 p st0).1.getD i dummyRec).cycle
        p2 st2).1 from by rw [hcyc]; exact hcyc ▸ hsrc]
    exact hvf.2.1
  · intro hmem
    rw [hin] at hmem
    rcases agentGo_invoked_sub mode env mc p mc 1 p st0 _ hmem with hl | ⟨i2, hi2, he1, he2⟩
    · rw [hi0] at hl
      cases hl
    · have hc2 : ((agentGo mode env mc p mc 1 p st0).1.getD i2 dummyRec).cycle = 1 + i2 :=
        agentGo_cycle mode env mc p mc 1 p st0 i2 hi2
      have hii : i2 = i := by
        rw [hc2, hcyc] at he1
        omega
      subst hii
      rw [show ((agentGo mode env mc p mc 1 p st0).1.getD i2 dummyRec) =
        (runCycle mode env mc p ((agentGo mode env mc p mc 1 p st0).1.getD i2 dummyRec).cycle
          p2 st2).1 from by rw [hcyc]; exact hcyc ▸ hsrc] at he2
      exact he2 hvf.2.1
  · intro hlt
    have hnt : ¬ terminating p ((agentGo mode env mc p mc 1 p st0).1.getD i dummyRec) := by
      intro ht
      obtain ⟨hts, _⟩ := ht
      rw [show ((agentGo mode env mc p mc 1 p st0).1.getD i dummyRec) =
        (runCycle mode env mc p ((agentGo mode env mc p mc 1 p st0).1.getD i dummyRec).cycle
          p2 st2).1 from by rw [hcyc]; exact hcyc ▸ hsrc] at hts
      rw [hvf.1] at hts
      cases hts
    refine agentGo_continue mode env mc p mc 1 p st0 i hi hnt ?_
    rw [hcyc] at hlt
    omega

/-- C7 (witness): a cycle-1 file set missing the entry point `bin/tap.go`
fails validation, skips the pipeline and the run continues to cycle 2. -/
theorem C7_witness :
    (validateGeneratedCode envC7.jsonParses
        (envC7.genO ((rsC7.getD 0 dummyRec).cycle)).files).valid = false ∧
    (rsC7.getD 0 dummyRec).success = false ∧
    (rsC7.getD 0 dummyRec).buildResult = none ∧
    (rsC7.getD 0 dummyRec).cycle ∉ (executeAgentCycle .localM envC7 2 "P").2.invoked ∧
    ((rsC7.getD 0 dummyRec).cycle < 2 → 0 + 1 < rsC7.length) :=
  C7_theorem .localM envC7 2 "P" rsC7 0 (by rfl) (by decide) (by decide)
    (Or.inl ⟨"bin/tap.go", by decide, by decide⟩)

/-- C6 (amended): when the build pipeline of a cycle fails with remaining
cycle budget, the next cycle's generation prompt is `generateFixPrompt`
applied to the failing cycle's own (accumulated) prompt and its build result
— i.e. the current prompt extended with one error line per failed phase
(each line carrying the phase's `error` text, or its output when no error
text exists), not the original prompt extended with the combined outputs. -/
theorem C6_theorem : ∀ (mode : Mode) (env : AgentEnv) (mc : Nat) (p : String)
    (rs : List CycleResult) (i : Nat) (br : BuildRes),
    (executeAgentCycle mode env mc p).1 = Except.ok rs →
    i < rs.length →
    i + 1 < (executeAgentCycle mode env mc p).2.prompts.length →
    (rs.getD i dummyRec).buildResult = some br →
    br.successFlag = false →
    (rs.getD i dummyRec).cycle < mc →
    ((executeAgentCycle mode env mc p).2.prompts.getD (i + 1) (0, "")).2 =
      generateFixPrompt (((executeAgentCycle mode env mc p).2.prompts.getD i (0, "")).2)
        (some br) := by
  intro mode env mc p rs i br h hi hip hbr hfl hcy
  obtain ⟨st0, hp0, _, hrs, hpr, _⟩ := executeAgentCycle_ok mode env mc p rs h
  subst hrs
  obtain ⟨L, hL1, hL2, hL3, hL4⟩ := agentGo_prompts mode env mc p mc 1 p st0
  rw [hpr, hL1, hp0] at hip ⊢
  simp only [List.nil_append] at hip ⊢
  exact hL4 i br hi hip hbr hfl hcy

/-- C6 (witness): the amended theorem at the concrete failing run `runC6`. -/
theorem C6_witness :
    ((executeAgentCycle .localM envC6 2 "P").2.prompts.getD 1 (0, "")).2 =
      generateFixPrompt
        (((executeAgentCycle .localM envC6 2 "P").2.prompts.getD 0 (0, "")).2)
        (some (BuildRes.localB bcC6)) :=
  C6_theorem .localM envC6 2 "P" rsC6 0 (BuildRes.localB bcC6) (by rfl) (by decide)
    (by decide) (by decide) (by decide) (by decide)

/-- C6 (counterexample): in `runC6` cycle 1's Build phase fails with stdout
`ZZA` and stderr `ZZB` — captured combined output `ZZAZZB` — yet the cycle-2
generation prompt does not contain `ZZAZZB`: only the `error` field (`ZZB`)
is appended, refuting the claim that the combined output of every failed
phase is appended verbatim. -/
theorem C6_counterexample :
    (rsC6.getD 0 dummyRec).buildResult = some (BuildRes.localB bcC6) ∧
    (BuildRes.localB bcC6).successFlag = false ∧
    bcC6.results.build = some ⟨false, "ZZAZZB", some "ZZB", 1⟩ ∧
    jsIncludes ((runC6.2.prompts.getD 1 (0, "")).2) "ZZAZZB" = false ∧
    jsIncludes ((runC6.2.prompts.getD 1 (0, "")).2) "ZZB" = true ∧
    (runC6.2.prompts.getD 0 (0, "")) = (1, "P") := by decide

/-- C9 (amended): whenever `executeAgentCycle` returns normally the ssh
session flag is cleared; but an exception thrown during the remote
environment bootstrap (after a successful connect) propagates without
closing the session — see the counterexample. -/
theorem C9_theorem : ∀ (mode : Mode) (env : AgentEnv) (mc : Nat) (p : String),
    (executeAgentCycle mode env mc p).1.isOk = true →
    (executeAgentCycle mode env mc p).2.connected = false := by
  intro mode env mc p h
  cases mode with
  | localM =>
    show (agentGo .localM env mc p mc 1 p initSt).2.connected = false
    rw [agentGo_connected]
    rfl
  | remoteM =>
    cases hc : connectSSH env initSt with
    | mk ec stc =>
      cases ec with
      | error e =>
        simp only [executeAgentCycle, hc] at h
        exact Bool.noConfusion h
      | ok u =>
        cases hs : setupRemoteAgent env stc with
        | mk es sts =>
          cases es with
          | error e =>
            simp only [executeAgentCycle, hc, hs] at h
            exact Bool.noConfusion h
          | ok u2 =>
            simp only [executeAgentCycle, hc, hs]
            exact (disconnectSSH_state _).2.2

/-- C9 (witness): a normally returning local run ends with the session flag
clear. -/
theorem C9_witness : (executeAgentCycle .localM envW 1 "p").2.connected = false :=
  C9_theorem .localM envW 1 "p" (by rfl)

/-- C9 (counterexample): when the first remote command of the environment
bootstrap throws a transport error, `executeAgentCycle` propagates the
exception and returns with the session still open (`connected = true`),
refuting the claim that the session is closed on every exit path. -/
theorem C9_counterexample :
    (executeAgentCycle .remoteM envC9 1 "p").1 = Except.error "Connection lost" ∧
    (executeAgentCycle .remoteM envC9 1 "p").2.connected = true := by decide

end IaCGen